import Mathlib

/-!
# hive: the validator sweep (`validator.go`)

A shallow embedding of `validateClients` and `validate`.

The container daemon, the image builders, the clock and the network are an
environment `Env σ`: every call of the Go code into them is a function from the
world state `σ` to a result and the next world state.  The embedding returns,
next to the Go result, the list of calls the run made, in the order it made
them, so that statements about teardown and ordering can be read off a run.

* Go `error` values are represented by their message (`Err := String`).
* A Go `map[string]T` is the list of its entries; each `range` statement over
  it asks the environment for the order in which this iteration yields them.
* A call that returns `(value, error)` is an `Except`: with a nil error the
  value is there.  The pointer field `NetworkSettings` of an inspected container
  may be nil.
* The readiness loop of `validate` has no bound in the source; the embedding
  takes the number of ticks it may run as `fuel` and answers `none` when the
  loop is still polling after that many ticks.
* A Go run-time panic (slicing `ID[:8]` of a shorter string, reading
  `NetworkSettings.IPAddress` through a nil pointer) is the outcome `panicked`;
  the deferred calls registered so far still run.
* Logging calls are not modelled.
-/

namespace Hive

/-- A Go `error`, by its message. -/
abbrev Err := String

deriving instance DecidableEq for Except

/-- The fields of `docker.Container` the code reads: `ID`, `State.Running`,
`State.ExitCode` and `NetworkSettings.IPAddress`.  `NetworkSettings` is a
pointer: `none` is the nil pointer, `some ip` a struct whose `IPAddress` is `ip`. -/
structure Container where
  ID : String
  Running : Bool
  ExitCode : Int
  NetworkSettings : Option String
deriving DecidableEq, Repr

/-- A `docker.CloseWaiter`: the handle of one log stream. -/
abbrev CloseWaiter := Nat

/-- The struct `validationResult`; times are clock readings. -/
structure validationResult where
  Start : Nat
  End : Nat
  Success : Bool
  Error : Option Err
deriving DecidableEq, Repr

/-- Everything `validator.go` calls but does not define. -/
structure Env (σ : Type) where
  /-- Reads the clock: `time.Now()`. -/
  Now : σ → Nat
  /-- The call `buildClients(daemon, pattern, cacher)`: name to image. -/
  buildClients : String → σ → Except Err (List (String × String)) × σ
  /-- The call `buildValidators(daemon, pattern, cacher)`: name to image. -/
  buildValidators : String → σ → Except Err (List (String × String)) × σ
  /-- The call `makeTestOutputDirectory(validator, "validator", clients)`. -/
  makeTestOutputDirectory : String → String → List (String × String) → σ → Except Err String × σ
  /-- The pure function `filepath.Join`. -/
  Join : String → String → String
  /-- The flag `*dockerHostAlias`. -/
  dockerHostAlias : String
  /-- The call `createClientContainer(daemon, client, validator, nil, overrides, nil)`. -/
  createClientContainer : String → String → List String → σ → Except Err Container × σ
  /-- The call `runContainer(daemon, id, logger, logfile, false)`. -/
  runContainer : String → String → σ → Except Err CloseWaiter × σ
  /-- The call `daemon.InspectContainer(id)`. -/
  InspectContainer : String → σ → Except Err Container × σ
  /-- The call `net.Dial("tcp", addr)`; `true` when it connected, and the
  connection is closed at once. -/
  Dial : String → σ → Bool × σ
  /-- The call `time.Sleep`, in milliseconds. -/
  Sleep : Nat → σ → σ
  /-- The call `daemon.CreateContainer` with an image and an environment. -/
  CreateContainer : String → List String → σ → Except Err Container × σ
  /-- The call `copyBetweenContainers(daemon, dst, src, target, path, optional)`. -/
  copyBetweenContainers : String → String → String → String → Bool → σ → Option Err × σ
  /-- The call `daemon.RemoveContainer` with an ID and the `Force` flag. -/
  RemoveContainer : String → Bool → σ → Option Err × σ
  /-- The method `Close()` of a waiter. -/
  Close : CloseWaiter → σ → σ
  /-- The method `Wait()` of a waiter. -/
  Wait : CloseWaiter → σ → σ
  /-- The order in which one `range` statement over a map with the entries `m`
  yields them; Go draws it afresh at every `range`. -/
  rangeOrder : (m : List (String × String)) → σ → { l : List (String × String) // l.Perm m } × σ

/-- One call made by a run, with its arguments and what it answered. -/
inductive Event where
  | buildClients (pattern : String) (res : Except Err (List (String × String)))
  | buildValidators (pattern : String) (res : Except Err (List (String × String)))
  | makeTestOutputDirectory (validator : String) (res : Except Err String)
  | createClientContainer (client validator : String) (res : Except Err Container)
  | runContainer (id logfile : String) (res : Except Err CloseWaiter)
  | InspectContainer (id : String) (res : Except Err Container)
  | Dial (addr : String) (connected : Bool)
  | Sleep (ms : Nat)
  | CreateContainer (image : String) (env : List String) (res : Except Err Container)
  | copyBetweenContainers (dst src path : String) (res : Option Err)
  | RemoveContainer (id : String) (force : Bool) (res : Option Err)
  | Close (w : CloseWaiter)
  | Wait (w : CloseWaiter)
deriving DecidableEq, Repr

/-- How a call of `validate` ends: it returns its result, or it panics. -/
inductive Outcome where
  | returned (result : validationResult)
  | panicked
deriving DecidableEq, Repr

/-- How the readiness loop ends: `break`, `return result` with an error, or a
panic at `c.NetworkSettings.IPAddress` (line 137). -/
inductive Poll where
  | online
  | failed (err : Err)
  | panicked
deriving DecidableEq, Repr

/-- A function registered with `defer` in `validate`. -/
inductive Deferred where
  | RemoveContainer (id : String)
  | Close (w : CloseWaiter)
deriving DecidableEq, Repr

variable {σ : Type}

/-- Runs the deferred calls, the last registered first (the head of the list).
An error of `RemoveContainer` is only logged. -/
def runDeferred (d : Env σ) : List Deferred → σ → σ × List Event
  | [], s => (s, [])
  | .RemoveContainer id :: ds, s =>
    let removed := d.RemoveContainer id true s
    let rest := runDeferred d ds removed.2
    (rest.1, .RemoveContainer id true removed.1 :: rest.2)
  | .Close w :: ds, s =>
    let rest := runDeferred d ds (d.Close w s)
    (rest.1, .Close w :: rest.2)

/-- The statement `return result`: the deferred calls run, the first deferred
function sets `result.End` last. -/
def finish (d : Env σ) (defers : List Deferred) (result : validationResult) (s : σ)
    (tr : List Event) : Outcome × σ × List Event :=
  let rest := runDeferred d defers s
  (.returned { result with End := d.Now rest.1 }, rest.1, tr ++ rest.2)

/-- A panic: the deferred calls run, no result is returned. -/
def abort (d : Env σ) (defers : List Deferred) (s : σ) (tr : List Event) :
    Outcome × σ × List Event :=
  let rest := runDeferred d defers s
  (.panicked, rest.1, tr ++ rest.2)

/-- The loop of `validate` that waits for the RPC socket (lines 123-145), run for
at most `fuel` ticks: how it ended (`none` when it is still polling after `fuel`
ticks), the world it left and the calls it made so far. -/
def pollLoop (d : Env σ) (id : String) : Nat → σ → Option Poll × σ × List Event
  | 0, s => (none, s, [])
  | fuel + 1, s =>
    match d.InspectContainer id s with
    | (.error err, s1) => (some (.failed err), s1, [.InspectContainer id (.error err)])
    | (.ok c, s1) =>
      if c.Running = false then
        (some (.failed "terminated unexpectedly"), s1, [.InspectContainer id (.ok c)])
      else
        match c.NetworkSettings with
        | none => (some .panicked, s1, [.InspectContainer id (.ok c)])
        | some ip =>
          match d.Dial (ip ++ ":8545") s1 with
          | (true, s2) =>
            (some .online, s2, [.InspectContainer id (.ok c), .Dial (ip ++ ":8545") true])
          | (false, s2) =>
            let rest := pollLoop d id fuel (d.Sleep 100 s2)
            (rest.1, rest.2.1, .InspectContainer id (.ok c) :: .Dial (ip ++ ":8545") false
              :: .Sleep 100 :: rest.2.2)

/-- The function `validate` (lines 79-201). -/
def validate (d : Env σ) (client validator : String) (overrides : List String)
    (logdir : String) (fuel : Nat) (s0 : σ) : Option (Outcome × σ × List Event) :=
  let result : validationResult := ⟨d.Now s0, 0, false, none⟩
  match d.createClientContainer client validator overrides s0 with
  | (.error err, s1) =>
    some (finish d [] { result with Error := some err } s1
      [.createClientContainer client validator (.error err)])
  | (.ok cc, s1) =>
    let tr1 := [Event.createClientContainer client validator (.ok cc)]
    if cc.ID.utf8ByteSize < 8 then some (abort d [] s1 tr1) else
    let defers1 := [Deferred.RemoveContainer cc.ID]
    match d.runContainer cc.ID (d.Join logdir "client.log") s1 with
    | (.error err, s2) =>
      some (finish d defers1 { result with Error := some err } s2
        (tr1 ++ [.runContainer cc.ID (d.Join logdir "client.log") (.error err)]))
    | (.ok cwaiter, s2) =>
      let tr2 := tr1 ++ [.runContainer cc.ID (d.Join logdir "client.log") (.ok cwaiter)]
      let defers2 := Deferred.Close cwaiter :: defers1
      match d.InspectContainer cc.ID s2 with
      | (.error err, s3) =>
        some (finish d defers2 { result with Error := some err } s3
          (tr2 ++ [.InspectContainer cc.ID (.error err)]))
      | (.ok lcc, s3) =>
        let tr3 := tr2 ++ [.InspectContainer cc.ID (.ok lcc)]
        match lcc.NetworkSettings with
        | none => some (abort d defers2 s3 tr3)
        | some cip =>
        match pollLoop d cc.ID fuel s3 with
        | (none, _, _) => none
        | (some .panicked, s4, evs) => some (abort d defers2 s4 (tr3 ++ evs))
        | (some (.failed err), s4, evs) =>
          some (finish d defers2 { result with Error := some err } s4 (tr3 ++ evs))
        | (some .online, s4, evs) =>
          let tr4 := tr3 ++ evs
          let env := ["HIVE_CLIENT_IP=" ++ cip, "HIVE_CLIENT_ID=" ++ cc.ID,
            "HIVE_DOCKER_HOST_ALIAS=" ++ d.dockerHostAlias]
          match d.CreateContainer validator env s4 with
          | (.error err, s5) =>
            some (finish d defers2 { result with Error := some err } s5
              (tr4 ++ [.CreateContainer validator env (.error err)]))
          | (.ok vc, s5) =>
            let tr5 := tr4 ++ [.CreateContainer validator env (.ok vc)]
            if vc.ID.utf8ByteSize < 8 then some (abort d defers2 s5 tr5) else
            let defers3 := Deferred.RemoveContainer vc.ID :: defers2
            let copied := d.copyBetweenContainers vc.ID cc.ID "" "/enode.sh" true s5
            let tr6 := tr5 ++ [.copyBetweenContainers vc.ID cc.ID "/enode.sh" copied.1]
            match d.runContainer vc.ID (d.Join logdir "validator.log") copied.2 with
            | (.error err, s7) =>
              some (finish d defers3 { result with Error := some err } s7
                (tr6 ++ [.runContainer vc.ID (d.Join logdir "validator.log") (.error err)]))
            | (.ok vwaiter, s7) =>
              let tr7 := tr6 ++
                [.runContainer vc.ID (d.Join logdir "validator.log") (.ok vwaiter)]
              match d.InspectContainer vc.ID s7 with
              | (.error err, s8) =>
                some (finish d defers3 { result with Error := some err } s8
                  (tr7 ++ [.InspectContainer vc.ID (.error err)]))
              | (.ok v1, s8) =>
                match v1.NetworkSettings with
                | none => some (abort d defers3 s8 (tr7 ++ [.InspectContainer vc.ID (.ok v1)]))
                | some _ =>
                let tr8 := tr7 ++ [.InspectContainer vc.ID (.ok v1), .Wait vwaiter]
                match d.InspectContainer vc.ID (d.Wait vwaiter s8) with
                | (.error err, s9) =>
                  some (finish d defers3 { result with Error := some err } s9
                    (tr8 ++ [.InspectContainer vc.ID (.error err)]))
                | (.ok v, s9) =>
                  some (finish d defers3 { result with Success := decide (v.ExitCode = 0) } s9
                    (tr8 ++ [.InspectContainer vc.ID (.ok v)]))

/-- The type `map[string]map[string]*validationResult`, each map as the list of
its entries, in the order the keys were first assigned. -/
abbrev Matrix := List (String × List (String × validationResult))

/-- The lookup `m[k]` with its presence flag. -/
def mapGet {α : Type} : List (String × α) → String → Option α
  | [], _ => none
  | (k1, v1) :: m, k => if k1 = k then some v1 else mapGet m k

/-- The assignment `m[k] = v`. -/
def mapPut {α : Type} : List (String × α) → String → α → List (String × α)
  | [], k, v => [(k, v)]
  | (k1, v1) :: m, k, v => if k1 = k then (k, v) :: m else (k1, v1) :: mapPut m k v

/-- Lines 70-73: `results[client]` is made when absent, then
`results[client][validator] = result`. -/
def setCell (results : Matrix) (client validator : String) (result : validationResult) :
    Matrix :=
  let results1 := if (mapGet results client).isNone then mapPut results client [] else results
  mapPut results1 client (mapPut ((mapGet results1 client).getD []) validator result)

/-- The expression `strings.Replace(client, string(filepath.Separator), "_", -1)`,
with the separator `/`. -/
def replaceSeparator (client : String) : String :=
  ⟨client.data.map (fun c => if c = '/' then '_' else c)⟩

/-- How a loop of `validateClients` ends: it runs to its end, it leaves the
function with `return nil, err`, or a call of `validate` panicked. -/
inductive Loop where
  | done (results : Matrix)
  | failed (err : Err)
  | panicked
deriving DecidableEq, Repr

/-- How a call of `validateClients` ends: it returns `(results, nil)` or
`(nil, err)`, or it panics. -/
inductive SweepOutcome where
  | returned (res : Except Err Matrix)
  | panicked
deriving DecidableEq, Repr

/-- The inner loop `for client, clientImage := range clients` (lines 59-74). -/
def rangeClients (d : Env σ) (overrides : List String) (validator validatorImage logdir : String)
    (fuel : Nat) : List (String × String) → Matrix → σ → Option (Loop × σ × List Event)
  | [], results, s => some (.done results, s, [])
  | (client, clientImage) :: rest, results, s =>
    match validate d clientImage validatorImage overrides
        (d.Join logdir (replaceSeparator client)) fuel s with
    | none => none
    | some (.panicked, s1, evs) => some (.panicked, s1, evs)
    | some (.returned result, s1, evs) =>
      match rangeClients d overrides validator validatorImage logdir fuel rest
          (setCell results client validator result) s1 with
      | none => none
      | some (o, s2, evs2) => some (o, s2, evs ++ evs2)

/-- The outer loop `for validator, validatorImage := range validators`
(lines 53-75), over the validators in the order of this iteration; each inner
loop ranges over `clients` in an order of its own. -/
def rangeValidators (d : Env σ) (overrides : List String) (clients : List (String × String))
    (fuel : Nat) : List (String × String) → Matrix → σ → Option (Loop × σ × List Event)
  | [], results, s => some (.done results, s, [])
  | (validator, validatorImage) :: rest, results, s =>
    match d.makeTestOutputDirectory validator "validator" clients s with
    | (.error err, s1) =>
      some (.failed err, s1, [.makeTestOutputDirectory validator (.error err)])
    | (.ok logdir, s1) =>
      let order := d.rangeOrder clients s1
      match rangeClients d overrides validator validatorImage logdir fuel order.1.val results
          order.2 with
      | none => none
      | some (.done results1, s2, evs) =>
        match rangeValidators d overrides clients fuel rest results1 s2 with
        | none => none
        | some (o, s3, evs2) =>
          some (o, s3, .makeTestOutputDirectory validator (.ok logdir) :: (evs ++ evs2))
      | some (o, s2, evs) =>
        some (o, s2, .makeTestOutputDirectory validator (.ok logdir) :: evs)

/-- The function `validateClients` (lines 32-77). -/
def validateClients (d : Env σ) (clientPattern validatorPattern : String)
    (overrides : List String) (fuel : Nat) (s0 : σ) :
    Option (SweepOutcome × σ × List Event) :=
  match d.buildClients clientPattern s0 with
  | (.error err, s1) =>
    some (.returned (.error err), s1, [.buildClients clientPattern (.error err)])
  | (.ok clients, s1) =>
    let tr1 := [Event.buildClients clientPattern (.ok clients)]
    if clients.length = 0 then
      some (.returned (.error "pattern did not match any clients"), s1, tr1)
    else
      match d.buildValidators validatorPattern s1 with
      | (.error err, s2) =>
        some (.returned (.error err), s2,
          tr1 ++ [.buildValidators validatorPattern (.error err)])
      | (.ok validators, s2) =>
        let tr2 := tr1 ++ [.buildValidators validatorPattern (.ok validators)]
        let order := d.rangeOrder validators s2
        match rangeValidators d overrides clients fuel order.1.val [] order.2 with
        | none => none
        | some (.done results, s3, evs) => some (.returned (.ok results), s3, tr2 ++ evs)
        | some (.failed err, s3, evs) => some (.returned (.error err), s3, tr2 ++ evs)
        | some (.panicked, s3, evs) => some (.panicked, s3, tr2 ++ evs)

/-! ### Reading a run

Decidable readings of the list of calls a run made. -/

/-- The entry `results[client][validator]`, when present. -/
def cell (m : Matrix) (client validator : String) : Option validationResult :=
  (mapGet m client).bind (fun row => mapGet row validator)

/-- The calls the readiness loop makes. -/
def isPollEvent : Event → Bool
  | .InspectContainer _ _ => true
  | .Dial _ _ => true
  | .Sleep _ => true
  | _ => false

/-- The ID of the container a call created, when it created one. -/
def createdID : Event → Option String
  | .createClientContainer _ _ (.ok c) => some c.ID
  | .CreateContainer _ _ (.ok c) => some c.ID
  | _ => none

/-- A call `RemoveContainer` with `Force: true` for the container `id`. -/
def isForcedRemoval (id : String) : Event → Bool
  | .RemoveContainer id1 force _ => force && decide (id1 = id)
  | _ => false

/-- Every container created in the run is removed, with force, later in the run. -/
def createdAreRemoved : List Event → Bool
  | [] => true
  | e :: es =>
    (match createdID e with
      | some id => es.any (isForcedRemoval id)
      | none => true) && createdAreRemoved es

/-- A call that releases the log stream `w`: `Close()`, or `Wait()`, which
returns when the stream has ended. -/
def isRelease (w : CloseWaiter) : Event → Bool
  | .Close w1 => decide (w1 = w)
  | .Wait w1 => decide (w1 = w)
  | _ => false

/-- Every log stream obtained in the run is released later in the run. -/
def streamsAreReleased : List Event → Bool
  | [] => true
  | e :: es =>
    (match e with
      | .runContainer _ _ (.ok w) => es.any (isRelease w)
      | _ => true) && streamsAreReleased es

/-- The run has calls satisfying the given tests, one after the other in this
order (each test is met by the first call after the previous match that
satisfies it). -/
def occursInOrder : List (Event → Bool) → List Event → Bool
  | [], _ => true
  | _ :: _, [] => false
  | p :: ps, e :: es => if p e then occursInOrder ps es else occursInOrder (p :: ps) es

/-- The ID of the client container: the one the first successful
`createClientContainer` of the run answered. -/
def clientID : List Event → Option String
  | [] => none
  | .createClientContainer _ _ (.ok c) :: _ => some c.ID
  | _ :: es => clientID es

/-- The ID of the validator container: the one the first successful
`daemon.CreateContainer` of the run answered. -/
def validatorID : List Event → Option String
  | [] => none
  | .CreateContainer _ _ (.ok c) :: _ => some c.ID
  | _ :: es => validatorID es

/-- The client container was created. -/
def isClientCreated : Event → Bool
  | .createClientContainer _ _ (.ok _) => true
  | _ => false

/-- The container `id` was started. -/
def isStartedOf (id : String) : Event → Bool
  | .runContainer id1 _ (.ok _) => decide (id1 = id)
  | _ => false

/-- The container `id` was inspected. -/
def isInspectedOf (id : String) : Event → Bool
  | .InspectContainer id1 (.ok _) => decide (id1 = id)
  | _ => false

/-- The readiness probe connected. -/
def isConnected : Event → Bool
  | .Dial _ true => true
  | _ => false

/-- The validator container was created. -/
def isValidatorCreated : Event → Bool
  | .CreateContainer _ _ (.ok _) => true
  | _ => false

/-- The run waited for a log stream to end. -/
def isWaited : Event → Bool
  | .Wait _ => true
  | _ => false

/-- An inspection of the container `id` that reports the exit code 0. -/
def isExitZeroOf (id : String) : Event → Bool
  | .InspectContainer id1 (.ok v) => decide (id1 = id) && decide (v.ExitCode = 0)
  | _ => false

/-- An inspection of the container `id` that reports an exit code other than 0. -/
def isExitNonzeroOf (id : String) : Event → Bool
  | .InspectContainer id1 (.ok v) => decide (id1 = id) && decide (v.ExitCode ≠ 0)
  | _ => false

/-- The client container was created, that container was started and inspected,
the probe connected, the validator container was created, that container was
started and inspected, the run waited, and the inspection of the validator
container after the wait reports the exit code 0. -/
def completedWithExitZero (tr : List Event) : Bool :=
  match clientID tr, validatorID tr with
  | some cid, some vid =>
    occursInOrder [isClientCreated, isStartedOf cid, isInspectedOf cid, isConnected,
      isValidatorCreated, isStartedOf vid, isInspectedOf vid, isWaited, isExitZeroOf vid] tr
  | _, _ => false

/-- The run reached the inspection of the validator container after the wait,
and it reports an exit code other than 0. -/
def reachedNonzeroExit (tr : List Event) : Bool :=
  match validatorID tr with
  | some vid => occursInOrder [isValidatorCreated, isWaited, isExitNonzeroOf vid] tr
  | none => false

/-- A dial. -/
def isDial : Event → Bool
  | .Dial _ _ => true
  | _ => false

/-- Every dial in the calls comes right after an inspection of the container
`id` that succeeded and reported it running, and goes to port 8545 of the
address that inspection reported. -/
def dialsFollowInspect (id : String) : Option Event → List Event → Bool
  | _, [] => true
  | prev, e :: es =>
    (match e with
      | .Dial addr _ =>
        (match prev with
          | some (.InspectContainer id1 (.ok c)) =>
            decide (id1 = id) && c.Running &&
              decide (c.NetworkSettings.map (fun ip => ip ++ ":8545") = some addr)
          | _ => false)
      | _ => true) && dialsFollowInspect id (some e) es

/-- Every dial of the run comes right after an inspection of the client
container that reported it running; a run without a client container has no
dial. -/
def dialsFollowClientInspect (tr : List Event) : Bool :=
  match clientID tr with
  | some cid => dialsFollowInspect cid none tr
  | none => !tr.any isDial

/-- The world at the start of tick `k` of the readiness loop for the container
`id` that starts in the world `s`: there is one when each of the ticks before it
found the container running and its dial refused, so that the loop slept and
went on. -/
def tickWorld (d : Env σ) (id : String) : Nat → σ → Option σ
  | 0, s => some s
  | k + 1, s =>
    match d.InspectContainer id s with
    | (.error _, _) => none
    | (.ok c, s1) =>
      if c.Running = false then none
      else
        match c.NetworkSettings with
        | none => none
        | some ip =>
          match d.Dial (ip ++ ":8545") s1 with
          | (true, _) => none
          | (false, s2) => tickWorld d id k (d.Sleep 100 s2)

/-- The sweep's pattern resolution failed: building the clients or the
validators failed or gave an empty set. -/
def isResolutionFailure : Event → Bool
  | .buildClients _ (.error _) => true
  | .buildClients _ (.ok []) => true
  | .buildValidators _ (.error _) => true
  | .buildValidators _ (.ok []) => true
  | _ => false

/-- Making the output directory of a validator failed. -/
def isDirectoryFailure : Event → Bool
  | .makeTestOutputDirectory _ (.error _) => true
  | _ => false

/-- The first call of a pair's run: `createClientContainer`. -/
def isPairStart : Event → Bool
  | .createClientContainer _ _ _ => true
  | _ => false

/-- The run of the pair of images `client`, `validator` was started. -/
def isPairStartOf (client validator : String) : Event → Bool
  | .createClientContainer c v _ => decide (c = client) && decide (v = validator)
  | _ => false

/-- A call that created a container whose ID has fewer than 8 bytes. -/
def createdShortID (e : Event) : Bool :=
  match createdID e with
  | some id => decide (id.utf8ByteSize < 8)
  | none => false

/-- An inspection that answered a container without network settings. -/
def inspectedWithoutNetwork : Event → Bool
  | .InspectContainer _ (.ok c) => c.NetworkSettings.isNone
  | _ => false

/-- The keys of a map after the assignment `m[k] = v`: a new key goes to the end. -/
def addKey (ks : List String) (k : String) : List String :=
  if k ∈ ks then ks else ks ++ [k]

/-- Two environments that agree on everything but what copying a file between
containers and removing a container answer; the effect of both calls on the
world is the same. -/
structure AgreeButBestEffort (d1 d2 : Env σ) : Prop where
  Now : d1.Now = d2.Now
  Join : d1.Join = d2.Join
  dockerHostAlias : d1.dockerHostAlias = d2.dockerHostAlias
  createClientContainer : d1.createClientContainer = d2.createClientContainer
  runContainer : d1.runContainer = d2.runContainer
  InspectContainer : d1.InspectContainer = d2.InspectContainer
  Dial : d1.Dial = d2.Dial
  Sleep : d1.Sleep = d2.Sleep
  CreateContainer : d1.CreateContainer = d2.CreateContainer
  Close : d1.Close = d2.Close
  Wait : d1.Wait = d2.Wait
  copyBetweenContainers : ∀ dst src target path optional s,
    (d1.copyBetweenContainers dst src target path optional s).2 =
      (d2.copyBetweenContainers dst src target path optional s).2
  RemoveContainer : ∀ id force s,
    (d1.RemoveContainer id force s).2 = (d2.RemoveContainer id force s).2

/-! ### Concrete environments

The world state of these environments is the number of calls of
`InspectContainer` made so far. -/

/-- A daemon on which every step works: a container made from image `i` has the
ID `container-i`, its address is its ID, it is running, every dial connects,
every container exits with code 0, the log stream of a container is numbered by
the length of its ID, every `range` yields the entries in the order the map
lists them.  Clients `A`, `B`; validator `V1`. -/
def happyEnv : Env Nat where
  Now := fun s => s
  buildClients := fun _ s => (.ok [("A", "imgA"), ("B", "imgB")], s)
  buildValidators := fun _ s => (.ok [("V1", "imgV1")], s)
  makeTestOutputDirectory := fun v _ _ s => (.ok ("logs/" ++ v), s)
  Join := fun a b => a ++ "/" ++ b
  dockerHostAlias := "dockerhost"
  createClientContainer := fun c _ _ s => (.ok ⟨"container-" ++ c, false, 0, none⟩, s)
  runContainer := fun id _ s => (.ok id.length, s)
  InspectContainer := fun id s => (.ok ⟨id, true, 0, some id⟩, s + 1)
  Dial := fun _ s => (true, s)
  Sleep := fun _ s => s
  CreateContainer := fun i _ s => (.ok ⟨"container-" ++ i, false, 0, none⟩, s)
  copyBetweenContainers := fun _ _ _ _ _ s => (none, s)
  RemoveContainer := fun _ _ s => (none, s)
  Close := fun _ s => s
  Wait := fun _ s => s
  rangeOrder := fun m s => (⟨m, List.Perm.refl m⟩, s)

/-- The daemon answers a container ID of three bytes for the client. -/
def shortIDEnv : Env Nat :=
  { happyEnv with createClientContainer := fun _ _ _ s => (.ok ⟨"abc", false, 0, none⟩, s) }

/-- The daemon answers a container ID of three bytes for the validator. -/
def shortValidatorIDEnv : Env Nat :=
  { happyEnv with CreateContainer := fun _ _ s => (.ok ⟨"abc", false, 0, none⟩, s) }

/-- The third inspection of a run (the first one of the validator) fails. -/
def inspectFailsEnv : Env Nat :=
  { happyEnv with
    InspectContainer := fun id s =>
      (if s < 2 then .ok ⟨id, true, 0, some id⟩ else .error "no such container", s + 1) }

/-- The validator pattern matches nothing. -/
def noValidatorsEnv : Env Nat :=
  { happyEnv with buildValidators := fun _ s => (.ok [], s) }

/-- Validators `V1`, `V2`; the output directory of `V2` cannot be made. -/
def directoryFailsEnv : Env Nat :=
  { happyEnv with
    buildValidators := fun _ s => (.ok [("V1", "imgV1"), ("V2", "imgV2")], s)
    makeTestOutputDirectory := fun v _ _ s =>
      (if v = "V2" then .error "mkdir failed" else .ok ("logs/" ++ v), s) }

/-- No dial connects; from the fourth inspection on the client is reported as
not running. -/
def clientExitsEnv : Env Nat :=
  { happyEnv with
    InspectContainer := fun id s => (.ok ⟨id, decide (s < 3), 0, some id⟩, s + 1)
    Dial := fun _ s => (false, s) }

/-- The client made from `imgA` accepts connections, no other container does. -/
def neverReadyEnv : Env Nat :=
  { happyEnv with Dial := fun addr s => (decide (addr = "container-imgA:8545"), s) }

/-- Copying the file and removing a container fail. -/
def bestEffortFailsEnv : Env Nat :=
  { happyEnv with
    copyBetweenContainers := fun _ _ _ _ _ s => (some "not found", s)
    RemoveContainer := fun _ _ s => (some "removal failed", s) }

/-- The validator container exits with code 137, every other container with
code 0. -/
def exitCodeEnv : Env Nat :=
  { happyEnv with
    InspectContainer := fun id s =>
      (.ok ⟨id, true, if id = "container-imgV1" then 137 else 0, some id⟩, s + 1) }

/-- The validator container exits with code 0, every other container with
code 137. -/
def clientCodeEnv : Env Nat :=
  { happyEnv with
    InspectContainer := fun id s =>
      (.ok ⟨id, true, if id = "container-imgV1" then 0 else 137, some id⟩, s + 1) }

/-! ### Lemmas -/

/-- The readiness loop only inspects, dials and sleeps. -/
theorem pollLoop_events (d : Env σ) (id : String) :
    ∀ (fuel : Nat) (s : σ), ∀ e ∈ (pollLoop d id fuel s).2.2, isPollEvent e = true := by
  intro fuel
  induction fuel with
  | zero => intro s e he; simp [pollLoop] at he
  | succ n ih =>
    intro s e he
    simp only [pollLoop] at he
    split at he
    · simp at he; subst he; rfl
    · split at he
      · simp at he; subst he; rfl
      · split at he
        · simp at he; subst he; rfl
        · split at he
          · simp at he; rcases he with rfl | rfl <;> rfl
          · simp at he
            rcases he with rfl | rfl | rfl | he
            · rfl
            · rfl
            · rfl
            · exact ih _ e he

/-- The readiness loop only inspects, dials and sleeps, for a loop given by its answer. -/
theorem pollLoop_events_eq (d : Env σ) (id : String) (fuel : Nat) (s s1 : σ) (r : Option Poll)
    (evs : List Event) (h : pollLoop d id fuel s = (r, s1, evs)) :
    ∀ e ∈ evs, isPollEvent e = true := by
  have := pollLoop_events d id fuel s
  rw [h] at this
  exact this

/-- More fuel does not change the answer of a readiness loop that has ended. -/
theorem pollLoop_mono (d : Env σ) (id : String) (k : Nat) :
    ∀ (fuel : Nat) (s : σ), (pollLoop d id fuel s).1 ≠ none →
      pollLoop d id (fuel + k) s = pollLoop d id fuel s := by
  intro fuel
  induction fuel with
  | zero => intro s h; simp [pollLoop] at h
  | succ n ih =>
    intro s h
    rw [Nat.add_right_comm]
    simp only [pollLoop] at h ⊢
    rcases hx : d.InspectContainer id s with ⟨_ | c, s1⟩
    · rfl
    · simp only [hx] at h ⊢
      by_cases hrun : c.Running = false
      · simp only [hrun, if_true]
      · simp only [hrun, if_false] at h ⊢
        cases hnet : c.NetworkSettings with
        | none => rfl
        | some ip =>
          simp only [hnet] at h ⊢
          rcases hy : d.Dial (ip ++ ":8545") s1 with ⟨_ | _, s2⟩
          · simp only [hy] at h ⊢
            rw [ih _ h]
          · rfl

/-- A loop that ends with `break` has exactly one connected dial, its last call. -/
theorem pollLoop_online (d : Env σ) (id : String) (ps : List (Event → Bool)) (rest : List Event) :
    ∀ (fuel : Nat) (s s1 : σ) (evs : List Event),
      pollLoop d id fuel s = (some .online, s1, evs) →
      occursInOrder (isConnected :: ps) (evs ++ rest) = occursInOrder ps rest := by
  intro fuel
  induction fuel with
  | zero => intro s s1 evs h; simp [pollLoop] at h
  | succ n ih =>
    intro s s1 evs h
    simp only [pollLoop] at h
    split at h
    · simp at h
    · split at h
      · simp at h
      · split at h
        · simp at h
        · split at h
          · simp at h; obtain ⟨_, rfl⟩ := h; simp [occursInOrder, isConnected]
          · simp at h; obtain ⟨h1, h2, rfl⟩ := h
            simp [occursInOrder, isConnected, ih _ _ _ (Prod.ext h1 (Prod.ext h2 rfl))]

/-- A loop that did not end with `break` has no connected dial. -/
theorem pollLoop_not_online (d : Env σ) (id : String) :
    ∀ (fuel : Nat) (s : σ), (pollLoop d id fuel s).1 ≠ some .online →
      ∀ e ∈ (pollLoop d id fuel s).2.2, isConnected e = false := by
  intro fuel
  induction fuel with
  | zero => intro s _ e he; simp [pollLoop] at he
  | succ n ih =>
    intro s h e he
    simp only [pollLoop] at h he
    rcases hx : d.InspectContainer id s with ⟨_ | c, s1⟩
    · simp [hx] at he; subst he; rfl
    · simp only [hx] at h he
      by_cases hrun : c.Running = false
      · simp [hrun] at he; subst he; rfl
      · simp only [hrun, if_false] at h he
        cases hnet : c.NetworkSettings with
        | none => simp [hnet] at he; subst he; rfl
        | some ip =>
          simp only [hnet] at h he
          rcases hy : d.Dial (ip ++ ":8545") s1 with ⟨_ | _, s2⟩
          · simp only [hy] at h he
            simp at he
            rcases he with rfl | rfl | rfl | he
            · rfl
            · rfl
            · rfl
            · exact ih _ h e he
          · simp [hy] at h

/-- A loop that ends with an error has no connected dial. -/
theorem pollLoop_failed (d : Env σ) (id : String) (fuel : Nat) (s s1 : σ) (err : Err)
    (evs : List Event) (h : pollLoop d id fuel s = (some (.failed err), s1, evs)) :
    ∀ e ∈ evs, isConnected e = false := by
  have := pollLoop_not_online d id fuel s
  rw [h] at this
  exact this (by simp)

/-- A loop that ends with a panic has no connected dial. -/
theorem pollLoop_panicked (d : Env σ) (id : String) (fuel : Nat) (s s1 : σ)
    (evs : List Event) (h : pollLoop d id fuel s = (some .panicked, s1, evs)) :
    ∀ e ∈ evs, isConnected e = false := by
  have := pollLoop_not_online d id fuel s
  rw [h] at this
  exact this (by simp)

/-- In the calls of the readiness loop, after however many ticks, every dial follows an inspection of the same container that reports it running. -/
theorem pollLoop_dials (d : Env σ) (id : String) (rest : List Event)
    (hrest : ∀ p, dialsFollowInspect id p rest = dialsFollowInspect id none rest) :
    ∀ (fuel : Nat) (s : σ) (prev : Option Event),
      dialsFollowInspect id prev ((pollLoop d id fuel s).2.2 ++ rest) =
        dialsFollowInspect id none rest := by
  intro fuel
  induction fuel with
  | zero => intro s prev; simp [pollLoop, hrest prev]
  | succ n ih =>
    intro s prev
    simp only [pollLoop]
    split
    · simp [dialsFollowInspect, hrest (some _)]
    · split
      · simp [dialsFollowInspect, hrest (some _)]
      · rename_i hrun
        split
        · simp [dialsFollowInspect, hrest (some _)]
        · rename_i hnet
          split
          · simp [dialsFollowInspect, hrest (some _), hnet]
            intro _
            simpa using hrun
          · simp [dialsFollowInspect, ih, hnet]
            intro _
            simpa using hrun

/-- The same, for a loop given by its answer. -/
theorem pollLoop_dials_eq (d : Env σ) (id : String) (rest : List Event)
    (hrest : ∀ p, dialsFollowInspect id p rest = dialsFollowInspect id none rest)
    (fuel : Nat) (s s1 : σ) (r : Option Poll) (evs : List Event) (prev : Option Event)
    (h : pollLoop d id fuel s = (r, s1, evs)) :
    dialsFollowInspect id prev (evs ++ rest) = dialsFollowInspect id none rest := by
  have := pollLoop_dials d id rest hrest fuel s prev
  rw [h] at this
  exact this

/-- The readiness loop does not depend on the best-effort calls. -/
theorem pollLoop_agree (d1 d2 : Env σ) (hagree : AgreeButBestEffort d1 d2) (id : String) :
    ∀ (fuel : Nat) (s : σ), pollLoop d1 id fuel s = pollLoop d2 id fuel s := by
  intro fuel
  induction fuel with
  | zero => intro s; rfl
  | succ n ih =>
    intro s
    simp only [pollLoop, hagree.InspectContainer, hagree.Dial, hagree.Sleep, ih]

/-- When every inspection reports the container running and no dial connects, the readiness loop is still polling after any number of ticks. -/
theorem pollLoop_forever (d : Env σ) (id : String)
    (hnever : ∀ s, ∃ c ip, (d.InspectContainer id s).1 = .ok c ∧ c.Running = true ∧
      c.NetworkSettings = some ip ∧ ∀ s2, (d.Dial (ip ++ ":8545") s2).1 = false) :
    ∀ (fuel : Nat) (s : σ), (pollLoop d id fuel s).1 = none := by
  intro fuel
  induction fuel with
  | zero => intro s; rfl
  | succ n ih =>
    intro s
    obtain ⟨c, ip, hc, hrun, hnet, hdial⟩ := hnever s
    simp only [pollLoop]
    rcases hx : d.InspectContainer id s with ⟨res, s1⟩
    rw [hx] at hc
    simp at hc
    subst hc
    simp only [hrun, hnet]
    rcases hy : d.Dial (ip ++ ":8545") s1 with ⟨b, s2⟩
    have := hdial s1
    rw [hy] at this
    simp at this
    subst this
    simp [ih]

/-- When the loop reaches a tick whose inspection reports the container not running, it ends there with the error `terminated unexpectedly`, for every fuel that reaches that tick. -/
theorem pollLoop_dead (d : Env σ) (id : String) (sk s4 : σ) (c : Container)
    (hdead : d.InspectContainer id sk = (.ok c, s4)) (hnot : c.Running = false) :
    ∀ (k : Nat) (s : σ), tickWorld d id k s = some sk → ∀ fuel, k < fuel →
      ∃ evs, pollLoop d id fuel s =
          (some (.failed "terminated unexpectedly"), s4, evs ++ [.InspectContainer id (.ok c)]) ∧
        ∀ e ∈ evs, isPollEvent e = true := by
  intro k
  induction k with
  | zero =>
    intro s hs fuel hfuel
    simp [tickWorld] at hs
    subst hs
    obtain ⟨n, rfl⟩ : ∃ n, fuel = n + 1 := ⟨fuel - 1, by omega⟩
    exact ⟨[], by simp [pollLoop, hdead, hnot], by simp⟩
  | succ k ih =>
    intro s hs fuel hfuel
    obtain ⟨n, rfl⟩ : ∃ n, fuel = n + 1 := ⟨fuel - 1, by omega⟩
    simp only [tickWorld] at hs
    simp only [pollLoop]
    rcases hx : d.InspectContainer id s with ⟨_ | c1, s1⟩
    · simp [hx] at hs
    · simp only [hx] at hs ⊢
      by_cases hrun : c1.Running = false
      · simp [hrun] at hs
      · simp only [hrun, if_false] at hs ⊢
        cases hnet : c1.NetworkSettings with
        | none => simp [hnet] at hs
        | some ip =>
          simp only [hnet] at hs ⊢
          rcases hy : d.Dial (ip ++ ":8545") s1 with ⟨_ | _, s2⟩
          · simp only [hy] at hs ⊢
            obtain ⟨evs, h1, h2⟩ := ih _ hs n (by omega)
            refine ⟨Event.InspectContainer id (.ok c1) :: Event.Dial (ip ++ ":8545") false ::
              Event.Sleep 100 :: evs, ?_, ?_⟩
            · simp [h1]
            · intro e he
              simp at he
              rcases he with rfl | rfl | rfl | he
              · rfl
              · rfl
              · rfl
              · exact h2 e he
          · simp [hy] at hs

/-- Calls that fail the first test can be dropped from the front of a run. -/
theorem occursInOrder_skip (p : Event → Bool) (ps : List (Event → Bool)) (evs rest : List Event)
    (h : ∀ e ∈ evs, p e = false) :
    occursInOrder (p :: ps) (evs ++ rest) = occursInOrder (p :: ps) rest := by
  induction evs with
  | nil => rfl
  | cons e es ih =>
    have he := h e (by simp)
    simp [occursInOrder, he, ih (fun x hx => h x (by simp [hx]))]

/-- The readiness loop never calls `Wait`. -/
theorem isWaited_of_isPollEvent (evs : List Event) (h : ∀ e ∈ evs, isPollEvent e = true) :
    ∀ e ∈ evs, isWaited e = false := by
  intro e he
  have := h e he
  cases e <;> simp_all [isPollEvent, isWaited]

/-- The readiness loop never calls `daemon.CreateContainer`. -/
theorem isValidatorCreated_of_isPollEvent (evs : List Event)
    (h : ∀ e ∈ evs, isPollEvent e = true) : ∀ e ∈ evs, isValidatorCreated e = false := by
  intro e he
  have := h e he
  cases e <;> simp_all [isPollEvent, isValidatorCreated]

/-- The validator container is not created inside the readiness loop. -/
theorem validatorID_poll (evs rest : List Event) (h : ∀ e ∈ evs, isPollEvent e = true) :
    validatorID (evs ++ rest) = validatorID rest := by
  induction evs with
  | nil => rfl
  | cons e es ih =>
    have he := h e (by simp)
    have := ih (fun x hx => h x (by simp [hx]))
    cases e <;> simp_all [validatorID, isPollEvent]

/-- The readiness loop creates no container. -/
theorem createdAreRemoved_poll (evs rest : List Event) (h : ∀ e ∈ evs, isPollEvent e = true) :
    createdAreRemoved (evs ++ rest) = createdAreRemoved rest := by
  induction evs with
  | nil => rfl
  | cons e es ih =>
    have he := h e (by simp)
    have := ih (fun x hx => h x (by simp [hx]))
    cases e <;> simp_all [createdAreRemoved, createdID, isPollEvent]

/-- The readiness loop creates no validator container. -/
theorem any_isValidatorCreated_poll (evs : List Event) (h : ∀ e ∈ evs, isPollEvent e = true) :
    evs.any isValidatorCreated = false := by
  simp only [List.any_eq_false]
  intro e he
  simp [isValidatorCreated_of_isPollEvent evs h e he]

/-- The readiness loop makes no output directory. -/
theorem any_isDirectoryFailure_poll (evs : List Event) (h : ∀ e ∈ evs, isPollEvent e = true) :
    evs.any isDirectoryFailure = false := by
  simp only [List.any_eq_false]
  intro e he
  have := h e he
  cases e <;> simp_all [isPollEvent, isDirectoryFailure]

/-- A loop that panics has inspected a container without network settings. -/
theorem pollLoop_panicked_cause (d : Env σ) (id : String) :
    ∀ (fuel : Nat) (s s1 : σ) (evs : List Event),
      pollLoop d id fuel s = (some .panicked, s1, evs) →
      evs.any inspectedWithoutNetwork = true := by
  intro fuel
  induction fuel with
  | zero => intro s s1 evs h; simp [pollLoop] at h
  | succ n ih =>
    intro s s1 evs h
    simp only [pollLoop] at h
    split at h
    · simp at h
    · split at h
      · simp at h
      · split at h
        · rename_i hnet
          simp at h; obtain ⟨_, rfl⟩ := h
          simp [inspectedWithoutNetwork, hnet]
        · split at h
          · simp at h
          · simp at h; obtain ⟨h1, h2, rfl⟩ := h
            have := ih _ _ _ (Prod.ext h1 (Prod.ext h2 rfl))
            simp [this]

/-- More fuel does not change what `validate` answers. -/
theorem validate_mono (d : Env σ) (client validator : String) (overrides : List String)
    (logdir : String) (fuel k : Nat) (s0 : σ) (x : Outcome × σ × List Event)
    (h : validate d client validator overrides logdir fuel s0 = some x) :
    validate d client validator overrides logdir (fuel + k) s0 = some x := by
  simp only [validate] at h ⊢
  split at h
  · exact h
  · split at h
    · simp_all
    · rename_i hlen
      simp only [hlen, if_false]
      split at h
      · exact h
      · split at h
        · exact h
        · split at h
          · exact h
          · have hne : ∀ {a : σ} {b : List Event} {r : Poll} {cid : String} {s3 : σ},
                pollLoop d cid fuel s3 = (some r, a, b) →
                pollLoop d cid (fuel + k) s3 = (some r, a, b) := by
              intro a b r cid s3 h1
              rw [pollLoop_mono d cid k fuel s3 (by rw [h1]; simp), h1]
            split at h
            · simp at h
            · rename_i heq
              rw [hne heq]
              exact h
            · rename_i heq
              rw [hne heq]
              exact h
            · rename_i heq
              rw [hne heq]
              exact h

/-- The world after the deferred calls does not depend on what the best-effort calls answer. -/
theorem runDeferred_agree (d1 d2 : Env σ) (hagree : AgreeButBestEffort d1 d2) :
    ∀ (defers : List Deferred) (s : σ), (runDeferred d1 defers s).1 = (runDeferred d2 defers s).1 := by
  intro defers
  induction defers with
  | nil => intro s; rfl
  | cons a ds ih =>
    intro s
    cases a with
    | RemoveContainer id => simp [runDeferred, hagree.RemoveContainer, ih]
    | Close w => simp [runDeferred, hagree.Close, ih]

/-- The outcome of `validate` and the world it leaves do not depend on what the best-effort calls answer. -/
theorem validate_agree (d1 d2 : Env σ) (hagree : AgreeButBestEffort d1 d2)
    (client validator : String) (overrides : List String) (logdir : String) (fuel : Nat) (s0 : σ) :
    (validate d1 client validator overrides logdir fuel s0).map (fun x => (x.1, x.2.1)) =
      (validate d2 client validator overrides logdir fuel s0).map (fun x => (x.1, x.2.1)) := by
  simp only [validate, hagree.createClientContainer, hagree.runContainer, hagree.InspectContainer,
    hagree.CreateContainer, hagree.Now, hagree.Join, hagree.dockerHostAlias, hagree.Wait,
    pollLoop_agree d1 d2 hagree, hagree.copyBetweenContainers]
  repeat' split
  all_goals simp_all [finish, abort, runDeferred_agree d1 d2 hagree, hagree.Now]

/-- When the client was created and started, every inspection reports it running and no dial connects, `validate` is still polling after any number of ticks. -/
theorem validate_forever (d : Env σ) (client validator : String) (overrides : List String)
    (logdir : String) (s0 s1 s2 : σ) (cc : Container) (w : CloseWaiter)
    (hcreate : d.createClientContainer client validator overrides s0 = (.ok cc, s1))
    (hid : 8 ≤ cc.ID.utf8ByteSize)
    (hrun : d.runContainer cc.ID (d.Join logdir "client.log") s1 = (.ok w, s2))
    (hnever : ∀ s, ∃ c ip, (d.InspectContainer cc.ID s).1 = .ok c ∧ c.Running = true ∧
      c.NetworkSettings = some ip ∧ ∀ s3, (d.Dial (ip ++ ":8545") s3).1 = false) (fuel : Nat) :
    validate d client validator overrides logdir fuel s0 = none := by
  obtain ⟨c, ip, hc, -, hnet, -⟩ := hnever s2
  rcases hx : d.InspectContainer cc.ID s2 with ⟨res, s3⟩
  rw [hx] at hc
  simp at hc
  subst hc
  have hp := pollLoop_forever d cc.ID hnever fuel s3
  rcases hy : pollLoop d cc.ID fuel s3 with ⟨r, s4, evs⟩
  rw [hy] at hp
  simp at hp
  subst hp
  simp [validate, hcreate, Nat.not_lt.mpr hid, hrun, hx, hnet, hy]

/-- Every run of `validate` calls `createClientContainer` with its two images. -/
theorem validate_starts_pair (d : Env σ) (client validator : String) (overrides : List String)
    (logdir : String) (fuel : Nat) (s0 s1 : σ) (o : Outcome) (tr : List Event)
    (h : validate d client validator overrides logdir fuel s0 = some (o, s1, tr)) :
    tr.any (isPairStartOf client validator) = true := by
  simp only [validate] at h
  repeat' split at h
  all_goals simp [finish, abort, runDeferred] at h
  all_goals obtain ⟨_, _, rfl⟩ := h
  all_goals simp [isPairStartOf]

/-- A run of `validate` makes no output directory. -/
theorem validate_no_directory_failure (d : Env σ) (client validator : String)
    (overrides : List String) (logdir : String) (fuel : Nat) (s0 s1 : σ) (o : Outcome)
    (tr : List Event)
    (h : validate d client validator overrides logdir fuel s0 = some (o, s1, tr)) :
    tr.any isDirectoryFailure = false := by
  simp only [validate] at h
  repeat' split at h
  all_goals simp [finish, abort, runDeferred] at h
  all_goals obtain ⟨_, _, rfl⟩ := h
  all_goals try (simp [isDirectoryFailure]; done)
  all_goals
    have hp := any_isDirectoryFailure_poll _ (pollLoop_events_eq _ _ _ _ _ _ _ (by assumption))
    simp only [List.cons_append, List.nil_append, List.append_assoc, List.any_cons,
      List.any_append, hp]
    simp [isDirectoryFailure]

/-- A run of `validate` panics only after a container with an ID shorter than 8 bytes was created or a container without network settings was inspected. -/
theorem validate_panicked_cause (d : Env σ) (client validator : String)
    (overrides : List String) (logdir : String) (fuel : Nat) (s0 s1 : σ) (tr : List Event)
    (h : validate d client validator overrides logdir fuel s0 = some (.panicked, s1, tr)) :
    tr.any createdShortID = true ∨ tr.any inspectedWithoutNetwork = true := by
  simp only [validate] at h
  repeat' split at h
  all_goals simp [finish, abort, runDeferred] at h
  all_goals obtain ⟨_, rfl⟩ := h
  all_goals try (simp [createdShortID, createdID, inspectedWithoutNetwork, *]; done)
  have hp := pollLoop_panicked_cause _ _ _ _ _ _ (by assumption)
  right
  simp only [List.any_eq_true] at hp ⊢
  obtain ⟨e, he, h1⟩ := hp
  exact ⟨e, by simp [he], h1⟩

/-- In a run of `validate` that returns a verdict, each container the run created gets a later call of `RemoveContainer` with its ID and `Force: true`. -/
theorem validate_removes (d : Env σ) (client validator : String) (overrides : List String)
    (logdir : String) (fuel : Nat) (s0 s1 : σ) (result : validationResult) (tr : List Event)
    (h : validate d client validator overrides logdir fuel s0 = some (.returned result, s1, tr)) :
    createdAreRemoved tr = true := by
  simp only [validate] at h
  repeat' split at h
  all_goals simp [finish, abort, runDeferred] at h
  all_goals obtain ⟨_, _, rfl⟩ := h
  all_goals try (simp [createdAreRemoved, createdID, isForcedRemoval]; done)
  all_goals
    have hp := pollLoop_events_eq _ _ _ _ _ _ _ (by assumption)
    simp [createdAreRemoved_poll _ _ hp, createdAreRemoved, createdID, isForcedRemoval]

/-- In a run of `validate` that ended, every dial follows an inspection of the client container that reports it running. -/
theorem validate_dials (d : Env σ) (client validator : String) (overrides : List String)
    (logdir : String) (fuel : Nat) (s0 s1 : σ) (o : Outcome) (tr : List Event)
    (h : validate d client validator overrides logdir fuel s0 = some (o, s1, tr)) :
    dialsFollowClientInspect tr = true := by
  simp only [validate] at h
  repeat' split at h
  all_goals simp [finish, abort, runDeferred] at h
  all_goals obtain ⟨_, _, rfl⟩ := h
  all_goals try (simp [dialsFollowClientInspect, clientID, dialsFollowInspect, isDial]; done)
  all_goals
    have hd := fun rest hrest prev =>
      pollLoop_dials_eq d _ rest hrest _ _ _ _ _ prev (by assumption)
    simp only [dialsFollowClientInspect, clientID, dialsFollowInspect, List.cons_append,
      List.nil_append, List.append_assoc, Bool.true_and]
    rw [hd _ (by intro p; simp [dialsFollowInspect])]
    simp [dialsFollowInspect]

/-- The property of the dials passes to the front part of a run. -/
theorem dialsFollowInspect_left (id : String) :
    ∀ (a b : List Event) (prev : Option Event),
      dialsFollowInspect id prev (a ++ b) = true → dialsFollowInspect id prev a = true := by
  intro a
  induction a with
  | nil => intro b prev _; rfl
  | cons e es ih =>
    intro b prev h
    simp only [List.cons_append, dialsFollowInspect, Bool.and_eq_true] at h ⊢
    exact ⟨h.1, ih b _ h.2⟩

/-- When the readiness wait of `validate` reaches a tick whose inspection reports the client not running, `validate` returns, for every fuel that reaches that tick: the verdict is a failure with the error `terminated unexpectedly` and the run ends with that inspection and the two deferred calls. -/
theorem validate_dead (d : Env σ) (client validator : String) (overrides : List String)
    (logdir : String) (s0 s1 s2 s3 sk s4 : σ) (cc lcc c : Container) (cw : CloseWaiter)
    (ip : String) (k : Nat)
    (hcreate : d.createClientContainer client validator overrides s0 = (.ok cc, s1))
    (hid : 8 ≤ cc.ID.utf8ByteSize)
    (hrun : d.runContainer cc.ID (d.Join logdir "client.log") s1 = (.ok cw, s2))
    (hinspect : d.InspectContainer cc.ID s2 = (.ok lcc, s3))
    (hnet : lcc.NetworkSettings = some ip)
    (hticks : tickWorld d cc.ID k s3 = some sk)
    (hdead : d.InspectContainer cc.ID sk = (.ok c, s4))
    (hnot : c.Running = false) (fuel : Nat) (hfuel : k < fuel) :
    ∃ result pre,
      validate d client validator overrides logdir fuel s0 =
        some (.returned result, (d.RemoveContainer cc.ID true (d.Close cw s4)).2,
          pre ++ [.InspectContainer cc.ID (.ok c), .Close cw,
            .RemoveContainer cc.ID true (d.RemoveContainer cc.ID true (d.Close cw s4)).1]) ∧
      result.Success = false ∧ result.Error = some "terminated unexpectedly" ∧
      pre.any isValidatorCreated = false ∧ clientID pre = some cc.ID ∧
      dialsFollowInspect cc.ID none pre = true := by
  obtain ⟨evs, h1, h2⟩ := pollLoop_dead d cc.ID sk s4 c hdead hnot k s3 hticks fuel hfuel
  refine ⟨⟨d.Now s0, d.Now (d.RemoveContainer cc.ID true (d.Close cw s4)).2, false,
      some "terminated unexpectedly"⟩,
    [.createClientContainer client validator (.ok cc),
      .runContainer cc.ID (d.Join logdir "client.log") (.ok cw),
      .InspectContainer cc.ID (.ok lcc)] ++ evs, ?_, rfl, rfl, ?_, ?_, ?_⟩
  · simp [validate, hcreate, Nat.not_lt.mpr hid, hrun, hinspect, hnet, h1, finish, runDeferred]
  · have := any_isValidatorCreated_poll _ h2
    simp only [List.any_append, this, Bool.or_false]
    rfl
  · simp [clientID]
  · have hd := pollLoop_dials_eq d cc.ID [] (fun _ => rfl) fuel s3 _ _ _
      (some (.InspectContainer cc.ID (.ok lcc))) h1
    rw [List.append_nil] at hd
    have := dialsFollowInspect_left cc.ID evs _ _ (hd.trans rfl)
    simp [dialsFollowInspect, this]

/-- Reading the key just assigned. -/
theorem mapGet_mapPut_self {α : Type} (m : List (String × α)) (k : String) (v : α) :
    mapGet (mapPut m k v) k = some v := by
  induction m with
  | nil => simp [mapPut, mapGet]
  | cons a m ih =>
    obtain ⟨k1, v1⟩ := a
    by_cases hk : k1 = k
    · simp [mapPut, mapGet, hk]
    · simp [mapPut, mapGet, hk, ih]

/-- Reading another key than the one just assigned. -/
theorem mapGet_mapPut_ne {α : Type} (m : List (String × α)) (k k2 : String) (v : α)
    (hne : k ≠ k2) : mapGet (mapPut m k v) k2 = mapGet m k2 := by
  induction m with
  | nil => simp [mapPut, mapGet, hne]
  | cons a m ih =>
    obtain ⟨k1, v1⟩ := a
    by_cases hk : k1 = k
    · subst hk
      simp [mapPut, mapGet, hne]
    · by_cases hk2 : k1 = k2
      · subst hk2
        simp [mapPut, mapGet, hk]
      · simp [mapPut, mapGet, hk, hk2, ih]

/-- A key is absent exactly when it is not among the keys. -/
theorem mapGet_isNone_iff {α : Type} (m : List (String × α)) (k : String) :
    (mapGet m k).isNone = true ↔ k ∉ m.map Prod.fst := by
  induction m with
  | nil => simp [mapGet]
  | cons a m ih =>
    obtain ⟨k1, v1⟩ := a
    by_cases hk : k1 = k
    · simp [mapGet, hk]
    · simp [mapGet, hk, ih, Ne.symm hk]

/-- The keys after an assignment. -/
theorem keys_mapPut {α : Type} (m : List (String × α)) (k : String) (v : α) :
    (mapPut m k v).map Prod.fst = addKey (m.map Prod.fst) k := by
  induction m with
  | nil => simp [mapPut, addKey]
  | cons a m ih =>
    obtain ⟨k1, v1⟩ := a
    by_cases hk : k1 = k
    · simp [mapPut, addKey, hk]
    · simp only [mapPut, hk, if_false, List.map_cons, ih, addKey, List.mem_cons, Ne.symm hk,
        false_or]
      split <;> simp

/-- The keys of the matrix after lines 70-73. -/
theorem keys_setCell (m : Matrix) (client validator : String) (result : validationResult) :
    (setCell m client validator result).map Prod.fst = addKey (m.map Prod.fst) client := by
  simp only [setCell, keys_mapPut]
  by_cases hc : client ∈ m.map Prod.fst
  · have : (mapGet m client).isNone = false := by
      cases h : (mapGet m client).isNone with
      | false => rfl
      | true => exact absurd hc ((mapGet_isNone_iff m client).mp h)
    simp only [this, Bool.false_eq_true, if_false]
  · have : (mapGet m client).isNone = true := (mapGet_isNone_iff m client).mpr hc
    simp only [this, keys_mapPut, if_true]
    simp [addKey, hc]

/-- The cell just written holds the result. -/
theorem cell_setCell_self (m : Matrix) (client validator : String) (result : validationResult) :
    cell (setCell m client validator result) client validator = some result := by
  simp [cell, setCell, mapGet_mapPut_self]

/-- Writing a cell keeps every cell that was there. -/
theorem cell_setCell_isSome (m : Matrix) (client validator : String) (result : validationResult)
    (c v : String) (h : (cell m c v).isSome = true) :
    (cell (setCell m client validator result) c v).isSome = true := by
  by_cases hc : client = c
  · subst hc
    cases hrow : mapGet m client with
    | none => simp [cell, hrow] at h
    | some row =>
      simp only [cell, hrow, Option.bind] at h
      by_cases hv : validator = v
      · subst hv
        simp [cell_setCell_self]
      · simp [cell, setCell, hrow, mapGet_mapPut_self, mapGet_mapPut_ne _ _ _ _ hv, h]
  · simp only [cell, setCell, mapGet_mapPut_ne _ _ _ _ hc]
    split
    · rw [mapGet_mapPut_ne _ _ _ _ hc]; exact h
    · exact h

/-- After a cell is written, a cell is an old one or the one written. -/
theorem cell_setCell_origin (m : Matrix) (client validator : String) (result : validationResult)
    (c v : String) (h : (cell (setCell m client validator result) c v).isSome = true) :
    (cell m c v).isSome = true ∨ (c = client ∧ v = validator) := by
  by_cases hc : client = c
  · subst hc
    by_cases hv : validator = v
    · exact Or.inr ⟨rfl, hv.symm⟩
    · left
      simp only [cell, setCell, mapGet_mapPut_self, Option.bind, mapGet_mapPut_ne _ _ _ _ hv] at h
      cases hrow : mapGet m client with
      | none => simp [hrow, mapGet_mapPut_self, mapGet] at h
      | some row => simpa [cell, hrow] using h
  · left
    simp only [cell, setCell, mapGet_mapPut_ne _ _ _ _ hc] at h
    split at h
    · rw [mapGet_mapPut_ne _ _ _ _ hc] at h; exact h
    · exact h

/-- Assigning keys that are all present keeps the keys. -/
theorem foldl_addKey_subset (names : List String) :
    ∀ ks : List String, (∀ n ∈ names, n ∈ ks) → names.foldl addKey ks = ks := by
  induction names with
  | nil => intro ks _; rfl
  | cons n rest ih =>
    intro ks h
    have hn : n ∈ ks := h n (by simp)
    simp only [List.foldl_cons, addKey, hn, if_true]
    exact ih ks (fun x hx => h x (by simp [hx]))

/-- Assigning distinct new keys appends them in order. -/
theorem foldl_addKey_fresh (names : List String) :
    ∀ ks : List String, (ks ++ names).Nodup → names.foldl addKey ks = ks ++ names := by
  induction names with
  | nil => intro ks _; simp
  | cons n rest ih =>
    intro ks h
    have hn : n ∉ ks := by
      intro hmem
      have := List.nodup_append.mp h
      exact this.2.2 hmem (by simp)
    simp only [List.foldl_cons, addKey, hn, if_false]
    rw [ih (ks ++ [n]) (by simpa using h)]
    simp

/-- The inner loop never leaves with an error; when it runs to its end it has started the pair of every client and written its cell, and kept the cells it found. -/
theorem rangeClients_done (d : Env σ) (overrides : List String)
    (validator validatorImage logdir : String) (fuel : Nat) :
    ∀ (clients : List (String × String)) (results : Matrix) (s s1 : σ) (o : Loop)
      (evs : List Event),
      rangeClients d overrides validator validatorImage logdir fuel clients results s =
        some (o, s1, evs) →
      (∀ err, o ≠ .failed err) ∧ evs.any isDirectoryFailure = false ∧
      ∀ results1, o = .done results1 →
        (∀ c ∈ clients, evs.any (isPairStartOf c.2 validatorImage) = true ∧
          (cell results1 c.1 validator).isSome = true) ∧
        ∀ c v, (cell results c v).isSome = true → (cell results1 c v).isSome = true := by
  intro clients
  induction clients with
  | nil =>
    intro results s s1 o evs h
    simp [rangeClients] at h
    obtain ⟨rfl, _, rfl⟩ := h
    simp
  | cons a rest ih =>
    intro results s s1 o evs h
    obtain ⟨client, clientImage⟩ := a
    simp only [rangeClients] at h
    split at h
    · simp at h
    · rename_i hval
      simp at h
      obtain ⟨rfl, _, rfl⟩ := h
      simp [validate_no_directory_failure _ _ _ _ _ _ _ _ _ _ hval]
    · rename_i hval
      split at h
      · simp at h
      · rename_i hrest
        simp at h
        obtain ⟨rfl, _, rfl⟩ := h
        obtain ⟨h1, h2, h3⟩ := ih _ _ _ _ _ hrest
        refine ⟨h1, ?_, ?_⟩
        · simp only [List.any_append, h2, validate_no_directory_failure _ _ _ _ _ _ _ _ _ _ hval,
            Bool.or_false]
        · intro results1 ho
          obtain ⟨h4, h5⟩ := h3 results1 ho
          refine ⟨?_, ?_⟩
          · intro c hc
            simp at hc
            rcases hc with rfl | hc
            · refine ⟨?_, ?_⟩
              · simp [validate_starts_pair _ _ _ _ _ _ _ _ _ _ hval]
              · exact h5 _ _ (by simp [cell_setCell_self])
            · obtain ⟨h6, h7⟩ := h4 c hc
              refine ⟨?_, h7⟩
              simp only [List.any_append, h6, Bool.or_true]
          · intro c v hcv
            exact h5 _ _ (cell_setCell_isSome _ _ _ _ _ _ hcv)

/-- The keys and the cells of the matrix after the inner loop. -/
theorem rangeClients_cells (d : Env σ) (overrides : List String)
    (validator validatorImage logdir : String) (fuel : Nat) :
    ∀ (clients : List (String × String)) (results results1 : Matrix) (s s1 : σ)
      (evs : List Event),
      rangeClients d overrides validator validatorImage logdir fuel clients results s =
        some (.done results1, s1, evs) →
      results1.map Prod.fst = (clients.map Prod.fst).foldl addKey (results.map Prod.fst) ∧
      ∀ c v, (cell results1 c v).isSome = true →
        (cell results c v).isSome = true ∨ (c ∈ clients.map Prod.fst ∧ v = validator) := by
  intro clients
  induction clients with
  | nil =>
    intro results results1 s s1 evs h
    simp [rangeClients] at h
    obtain ⟨rfl, _, rfl⟩ := h
    simp
  | cons a rest ih =>
    intro results results1 s s1 evs h
    obtain ⟨client, clientImage⟩ := a
    simp only [rangeClients] at h
    split at h
    · simp at h
    · simp at h
    · split at h
      · simp at h
      · rename_i hrest
        simp at h
        obtain ⟨rfl, _, rfl⟩ := h
        obtain ⟨h1, h2⟩ := ih _ _ _ _ _ hrest
        refine ⟨?_, ?_⟩
        · rw [h1, keys_setCell]; rfl
        · intro c v hcv
          rcases h2 c v hcv with h3 | ⟨h3, h4⟩
          · rcases cell_setCell_origin _ _ _ _ _ _ h3 with h5 | ⟨h5, h6⟩
            · exact Or.inl h5
            · exact Or.inr ⟨by simp [h5], h6⟩
          · exact Or.inr ⟨by simp [h3], h4⟩

/-- The outer loop leaves with an error only after a directory failure; when it runs to its end it has started every pair and written its cell, whatever the order of each inner loop. -/
theorem rangeValidators_done (d : Env σ) (overrides : List String)
    (clients : List (String × String)) (fuel : Nat) :
    ∀ (validators : List (String × String)) (results : Matrix) (s s1 : σ) (o : Loop)
      (evs : List Event),
      rangeValidators d overrides clients fuel validators results s = some (o, s1, evs) →
      (∀ err, o = .failed err → evs.any isDirectoryFailure = true) ∧
      ∀ results1, o = .done results1 →
        (∀ v ∈ validators, ∀ c ∈ clients, evs.any (isPairStartOf c.2 v.2) = true ∧
          (cell results1 c.1 v.1).isSome = true) ∧
        ∀ c v, (cell results c v).isSome = true → (cell results1 c v).isSome = true := by
  intro validators
  induction validators with
  | nil =>
    intro results s s1 o evs h
    simp [rangeValidators] at h
    obtain ⟨rfl, _, rfl⟩ := h
    simp
  | cons a rest ih =>
    intro results s s1 o evs h
    obtain ⟨validator, validatorImage⟩ := a
    simp only [rangeValidators] at h
    split at h
    · simp at h
      obtain ⟨rfl, _, rfl⟩ := h
      simp [isDirectoryFailure]
    · rename_i logdir sm _
      have hperm := (d.rangeOrder clients sm).1.property
      split at h
      · simp at h
      · rename_i hinner
        obtain ⟨-, -, h3⟩ := rangeClients_done _ _ _ _ _ _ _ _ _ _ _ _ hinner
        obtain ⟨h4, h5⟩ := h3 _ rfl
        split at h
        · simp at h
        · rename_i hrest
          simp at h
          obtain ⟨rfl, _, rfl⟩ := h
          obtain ⟨h6, h7⟩ := ih _ _ _ _ _ hrest
          refine ⟨?_, ?_⟩
          · intro err ho
            simp [h6 err ho]
          · intro results1 ho
            obtain ⟨h8, h9⟩ := h7 results1 ho
            refine ⟨?_, ?_⟩
            · intro v hv c hc
              simp at hv
              rcases hv with rfl | hv
              · obtain ⟨h10, h11⟩ := h4 c (hperm.mem_iff.mpr hc)
                refine ⟨?_, h9 _ _ h11⟩
                simp [h10]
              · obtain ⟨h10, h11⟩ := h8 v hv c hc
                refine ⟨?_, h11⟩
                simp [h10]
            · intro c v hcv
              exact h9 _ _ (h5 _ _ hcv)
      · rename_i hnot hinner
        simp at h
        obtain ⟨rfl, _, rfl⟩ := h
        obtain ⟨h1, -, -⟩ := rangeClients_done _ _ _ _ _ _ _ _ _ _ _ _ hinner
        refine ⟨?_, ?_⟩
        · intro err ho
          exact absurd ho (h1 err)
        · intro results1 ho
          exact absurd ho (hnot results1)

/-- The keys and the cells of the matrix after the outer loop. -/
theorem rangeValidators_cells (d : Env σ) (overrides : List String)
    (clients : List (String × String)) (fuel : Nat) :
    ∀ (validators : List (String × String)) (results results1 : Matrix) (s s1 : σ)
      (evs : List Event),
      rangeValidators d overrides clients fuel validators results s =
        some (.done results1, s1, evs) →
      (validators = [] → results1 = results) ∧
      ((clients.map Prod.fst).Nodup → validators ≠ [] →
        (results.map Prod.fst = [] ∨ (results.map Prod.fst).Perm (clients.map Prod.fst)) →
        (results1.map Prod.fst).Perm (clients.map Prod.fst)) ∧
      ∀ c v, (cell results1 c v).isSome = true →
        (cell results c v).isSome = true ∨
          (c ∈ clients.map Prod.fst ∧ v ∈ validators.map Prod.fst) := by
  intro validators
  induction validators with
  | nil =>
    intro results results1 s s1 evs h
    simp [rangeValidators] at h
    obtain ⟨rfl, _, rfl⟩ := h
    simp
  | cons a rest ih =>
    intro results results1 s s1 evs h
    obtain ⟨validator, validatorImage⟩ := a
    simp only [rangeValidators] at h
    split at h
    · simp at h
    · rename_i logdir sm _
      have hperm := ((d.rangeOrder clients sm).1.property).map Prod.fst
      split at h
      · simp at h
      · rename_i mid _ _ hinner
        obtain ⟨h1, h2⟩ := rangeClients_cells _ _ _ _ _ _ _ _ _ _ _ _ hinner
        split at h
        · simp at h
        · rename_i hrest
          simp at h
          obtain ⟨rfl, _, rfl⟩ := h
          obtain ⟨h3, h4, h5⟩ := ih _ _ _ _ _ hrest
          refine ⟨by simp, ?_, ?_⟩
          · intro hnodup _ hkeys
            have hmid : (mid.map Prod.fst).Perm (clients.map Prod.fst) := by
              rw [h1]
              rcases hkeys with hk | hk
              · rw [hk, foldl_addKey_fresh _ _ (by simpa using hperm.nodup_iff.mpr hnodup)]
                simpa using hperm
              · rw [foldl_addKey_subset _ _
                  (fun n hn => hk.mem_iff.mpr (hperm.mem_iff.mp hn))]
                exact hk
            by_cases hr : rest = []
            · rw [h3 hr]; exact hmid
            · exact h4 hnodup hr (Or.inr hmid)
          · intro c v hcv
            rcases h5 c v hcv with h6 | ⟨h6, h7⟩
            · rcases h2 c v h6 with h8 | ⟨h8, h9⟩
              · exact Or.inl h8
              · exact Or.inr ⟨hperm.mem_iff.mp h8, by simp [h9]⟩
            · exact Or.inr ⟨h6, by simp at h7 ⊢; exact Or.inr h7⟩
      · rename_i hnot hinner
        simp at h
        obtain ⟨rfl, _, rfl⟩ := h
        exact absurd rfl (hnot _)

/-- What a sweep that returns has done, by what it returns. -/
theorem validateClients_returned (d : Env σ) (clientPattern validatorPattern : String)
    (overrides : List String) (fuel : Nat) (s0 s1 : σ) (res : Except Err Matrix)
    (tr : List Event)
    (h : validateClients d clientPattern validatorPattern overrides fuel s0 =
      some (.returned res, s1, tr)) :
    match res with
    | .error _ =>
      (tr.any isResolutionFailure = true ∧ tr.any isPairStart = false) ∨
        tr.any isDirectoryFailure = true
    | .ok m =>
      ∃ clients validators,
        Event.buildClients clientPattern (.ok clients) ∈ tr ∧
        Event.buildValidators validatorPattern (.ok validators) ∈ tr ∧
        ∀ c ∈ clients, ∀ v ∈ validators,
          tr.any (isPairStartOf c.2 v.2) = true ∧ (cell m c.1 v.1).isSome = true := by
  simp only [validateClients] at h
  split at h
  · simp at h
    obtain ⟨rfl, _, rfl⟩ := h
    simp [isResolutionFailure, isPairStart]
  · split at h
    · rename_i hlen
      simp at h
      obtain ⟨rfl, _, rfl⟩ := h
      simp at hlen
      subst hlen
      simp [isResolutionFailure, isPairStart]
    · split at h
      · simp at h
        obtain ⟨rfl, _, rfl⟩ := h
        simp [isResolutionFailure, isPairStart]
      · rename_i validators sm _
        have hperm := (d.rangeOrder validators sm).1.property
        split at h
        · simp at h
        · rename_i hloop
          simp at h
          obtain ⟨rfl, _, rfl⟩ := h
          obtain ⟨-, h2⟩ := rangeValidators_done _ _ _ _ _ _ _ _ _ _ hloop
          obtain ⟨h3, -⟩ := h2 _ rfl
          refine ⟨_, _, List.mem_cons_self _ _, List.mem_cons_of_mem _ (List.mem_cons_self _ _), ?_⟩
          intro c hc v hv
          obtain ⟨h4, h5⟩ := h3 v (hperm.mem_iff.mpr hv) c hc
          refine ⟨?_, h5⟩
          simp [h4]
        · rename_i hloop
          simp at h
          obtain ⟨rfl, _, rfl⟩ := h
          obtain ⟨h1, -⟩ := rangeValidators_done _ _ _ _ _ _ _ _ _ _ hloop
          right
          simp [h1 _ rfl]
        · simp at h

/-- The matrix a sweep returns has a cell exactly for the pairs of a resolved client and a resolved validator; when the client names are distinct and at least one validator was resolved, its keys are the client names, each once. -/
theorem validateClients_matrix_shape (d : Env σ) (clientPattern validatorPattern : String)
    (overrides : List String) (fuel : Nat) (s0 s1 : σ) (m : Matrix) (tr : List Event)
    (h : validateClients d clientPattern validatorPattern overrides fuel s0 =
      some (.returned (.ok m), s1, tr)) :
    ∃ clients validators,
      Event.buildClients clientPattern (.ok clients) ∈ tr ∧
      Event.buildValidators validatorPattern (.ok validators) ∈ tr ∧
      (∀ c v, (cell m c v).isSome = true ↔
        (c ∈ clients.map Prod.fst ∧ v ∈ validators.map Prod.fst)) ∧
      ((clients.map Prod.fst).Nodup → validators ≠ [] →
        (m.map Prod.fst).Perm (clients.map Prod.fst) ∧ m.length = clients.length) := by
  simp only [validateClients] at h
  split at h
  · simp at h
  · split at h
    · simp at h
    · split at h
      · simp at h
      · rename_i validators sm _
        have hperm := (d.rangeOrder validators sm).1.property
        split at h
        · simp at h
        · rename_i hloop
          simp at h
          obtain ⟨rfl, _, rfl⟩ := h
          obtain ⟨-, h2⟩ := rangeValidators_done _ _ _ _ _ _ _ _ _ _ hloop
          obtain ⟨h3, -⟩ := h2 _ rfl
          obtain ⟨-, h4, h5⟩ := rangeValidators_cells _ _ _ _ _ _ _ _ _ _ hloop
          refine ⟨_, _, List.mem_cons_self _ _,
            List.mem_cons_of_mem _ (List.mem_cons_self _ _), ?_, ?_⟩
          · intro c v
            constructor
            · intro hcv
              rcases h5 c v hcv with h6 | h6
              · simp [cell, mapGet] at h6
              · exact ⟨h6.1, (hperm.map Prod.fst).mem_iff.mp h6.2⟩
            · rintro ⟨hc, hv⟩
              obtain ⟨cp, hcp, rfl⟩ := List.mem_map.mp hc
              obtain ⟨vp, hvp, rfl⟩ := List.mem_map.mp hv
              exact (h3 vp (hperm.mem_iff.mpr hvp) cp hcp).2
          · intro hnodup hne
            have hne2 : (d.rangeOrder validators sm).1.val ≠ [] := by
              intro h0
              rw [h0] at hperm
              exact hne (List.Perm.nil_eq hperm).symm
            have hkeys := h4 hnodup hne2 (Or.inl rfl)
            refine ⟨hkeys, ?_⟩
            have := hkeys.length_eq
            simpa using this
        · simp at h
        · simp at h

/-- In `neverReadyEnv` the run for the client image `imgB` never ends. -/
theorem neverReadyEnv_imgB (logdir : String) (fuel s : Nat) :
    validate neverReadyEnv "imgB" "imgV1" [] logdir fuel s = none := by
  refine validate_forever neverReadyEnv "imgB" "imgV1" [] logdir s s s
    ⟨"container-imgB", false, 0, none⟩ 14 rfl (by decide) rfl ?_ fuel
  intro s
  exact ⟨⟨"container-imgB", true, 0, some "container-imgB"⟩, "container-imgB", rfl, rfl, rfl,
    fun _ => rfl⟩

/-- In `neverReadyEnv` the run for the client image `imgA` succeeds on the first tick. -/
theorem neverReadyEnv_imgA (logdir : String) (n s : Nat) :
    ∃ r s1 evs, validate neverReadyEnv "imgA" "imgV1" [] logdir (n + 1) s =
      some (.returned r, s1, evs) ∧ r.Success = true ∧ r.Error = none :=
  ⟨_, _, _, rfl, rfl, rfl⟩

/-- In `neverReadyEnv` the sweep never ends. -/
theorem neverReadyEnv_sweep (fuel : Nat) :
    validateClients neverReadyEnv "" "" [] fuel 0 = none := by
  have e1 : neverReadyEnv.buildClients "" 0 = (.ok [("A", "imgA"), ("B", "imgB")], 0) := rfl
  have e2 : neverReadyEnv.buildValidators "" 0 = (.ok [("V1", "imgV1")], 0) := rfl
  have e3 : neverReadyEnv.makeTestOutputDirectory "V1" "validator"
      [("A", "imgA"), ("B", "imgB")] 0 = (.ok "logs/V1", 0) := rfl
  have e4 : ∀ m s, neverReadyEnv.rangeOrder m s = (⟨m, List.Perm.refl m⟩, s) := fun _ _ => rfl
  cases fuel with
  | zero => rfl
  | succ n =>
    obtain ⟨r, s1, evs, hA, -⟩ :=
      neverReadyEnv_imgA (neverReadyEnv.Join "logs/V1" (replaceSeparator "A")) n 0
    simp [validateClients, rangeValidators, rangeClients, e1, e2, e3, e4, hA, neverReadyEnv_imgB]

/-- The environments `happyEnv` and `bestEffortFailsEnv` differ only in what the best-effort calls answer. -/
theorem agree_happy_bestEffortFails : AgreeButBestEffort happyEnv bestEffortFailsEnv :=
  ⟨rfl, rfl, rfl, rfl, rfl, rfl, rfl, rfl, rfl, rfl, rfl, fun _ _ _ _ _ _ => rfl,
    fun _ _ _ => rfl⟩

/-! ### The claims -/

/-- C1. For every run of `validate` that returns a verdict: `Success` is true exactly
when the client container was created, that container was started and
inspected, the readiness probe connected, the validator container was created,
that container was started and inspected, and the inspection of the validator
container after the wait reports the exit code 0; and when the run reaches that
inspection of the validator container with another exit code, the verdict has
`Success = false` and `Error = nil`. -/
theorem validate_success_iff (d : Env σ) (client validator : String) (overrides : List String)
    (logdir : String) (fuel : Nat) (s0 s1 : σ) (result : validationResult) (tr : List Event)
    (h : validate d client validator overrides logdir fuel s0 = some (.returned result, s1, tr)) :
    (result.Success = true ↔ completedWithExitZero tr = true) ∧
      (reachedNonzeroExit tr = true → result.Success = false ∧ result.Error = none) := by
  simp only [validate] at h
  repeat' split at h
  all_goals simp [finish, abort, runDeferred] at h
  all_goals obtain ⟨rfl, _, rfl⟩ := h
  all_goals try
    (simp [completedWithExitZero, reachedNonzeroExit, clientID, validatorID, occursInOrder,
      isClientCreated, isStartedOf, isInspectedOf, isConnected, isValidatorCreated, isWaited,
      isExitZeroOf, isExitNonzeroOf]; done)
  all_goals
    have hp := pollLoop_events_eq _ _ _ _ _ _ _ (by assumption)
    have hw := isWaited_of_isPollEvent _ hp
    have hv := isValidatorCreated_of_isPollEvent _ hp
    have hid := fun rest => validatorID_poll _ rest hp
    first
    | (have hf := pollLoop_failed _ _ _ _ _ _ _ (by assumption)
       simp [completedWithExitZero, reachedNonzeroExit, clientID, validatorID, hid,
         occursInOrder_skip _ _ _ _ hf, occursInOrder_skip _ _ _ _ hv, occursInOrder,
         isClientCreated, isStartedOf, isInspectedOf, isConnected, isValidatorCreated, isWaited,
         isExitZeroOf, isExitNonzeroOf])
    | (have ho := fun ps rest => pollLoop_online d _ ps rest _ _ _ _ (by assumption)
       simp [completedWithExitZero, reachedNonzeroExit, clientID, validatorID, hid,
         ho, occursInOrder_skip _ _ _ _ hv, occursInOrder,
         isClientCreated, isStartedOf, isInspectedOf, isConnected, isValidatorCreated, isWaited,
         isExitZeroOf, isExitNonzeroOf])

/-- Two runs. The validator exits with code 137 and the client with code 0:
`Success = false` with no error. The validator exits with code 0 and the client
with code 137: `Success = true`. -/
theorem validate_success_iff_witness :
    (∃ r s tr, validate exitCodeEnv "imgA" "imgV1" [] "logs" 5 0 = some (.returned r, s, tr) ∧
      r.Success = false ∧ r.Error = none ∧ reachedNonzeroExit tr = true ∧
      ((r.Success = true ↔ completedWithExitZero tr = true) ∧
        (reachedNonzeroExit tr = true → r.Success = false ∧ r.Error = none))) ∧
    (∃ r s tr, validate clientCodeEnv "imgA" "imgV1" [] "logs" 5 0 = some (.returned r, s, tr) ∧
      r.Success = true ∧ completedWithExitZero tr = true ∧
      ((r.Success = true ↔ completedWithExitZero tr = true) ∧
        (reachedNonzeroExit tr = true → r.Success = false ∧ r.Error = none))) :=
  ⟨⟨_, _, _, rfl, rfl, rfl, by decide,
      validate_success_iff exitCodeEnv "imgA" "imgV1" [] "logs" 5 0 _ _ _ rfl⟩,
    ⟨_, _, _, rfl, rfl, by decide,
      validate_success_iff clientCodeEnv "imgA" "imgV1" [] "logs" 5 0 _ _ _ rfl⟩⟩

/-- C2, at the failing input. Two clients are resolved and no validator: the sweep
returns a matrix and a nil error, and the matrix has no key at all, so it has
not one key per resolved client. -/
theorem validateClients_matrix_misses_clients :
    ∃ m s tr clients, validateClients noValidatorsEnv "" "" [] 5 0 =
        some (.returned (.ok m), s, tr) ∧
      Event.buildClients "" (.ok clients) ∈ tr ∧ clients.length = 2 ∧ m.length = 0 ∧
      mapGet m "A" = none ∧ mapGet m "B" = none :=
  ⟨_, _, _, [("A", "imgA"), ("B", "imgB")], rfl, by decide, rfl, rfl, rfl, rfl⟩

/-- C3, at the failing input. When the validator pattern matches nothing the sweep
is not rejected: it returns the empty matrix and a nil error, after the two
build calls only. -/
theorem validateClients_accepts_no_validators :
    ∀ fuel, validateClients noValidatorsEnv "" "" [] fuel 0 =
      some (.returned (.ok []), 0,
        [.buildClients "" (.ok [("A", "imgA"), ("B", "imgB")]), .buildValidators "" (.ok [])]) :=
  fun _ => rfl

/-- C4, at the failing input. The daemon answers the ID `abc` for the validator
container: `validate` panics at `vc.ID[:8]` (line 159), before the removal of
that container is deferred (line 161). The deferred calls remove the client
container; the validator container, which was created, is never removed. -/
theorem validate_leaves_validator_container :
    ∃ s tr, validate shortValidatorIDEnv "imgA" "imgV1" [] "logs" 5 0 =
        some (.panicked, s, tr) ∧
      tr.filterMap createdID = ["container-imgA", "abc"] ∧
      tr.any (isForcedRemoval "container-imgA") = true ∧
      tr.any (isForcedRemoval "abc") = false ∧
      createdAreRemoved tr = false :=
  ⟨_, _, rfl, by decide, by decide, by decide, by decide⟩

/-- C5 as stated fails: with two clients and two validators resolved, the sweep
returns a non-nil error because the output directory of the second validator
cannot be made; pattern resolution did not fail, and pairs have been run. -/
theorem directory_failure_counterexample :
    ∃ err s tr, validateClients directoryFailsEnv "" "" [] 5 0 =
        some (.returned (.error err), s, tr) ∧
      tr.any isResolutionFailure = false ∧ tr.any isPairStart = true :=
  ⟨_, _, _, rfl, by decide, by decide⟩

/-- C5, amended. When `validateClients` returns a non-nil error, either pattern
resolution failed (building the clients or the validators failed or matched
nothing) and no pair has been run, or making the output directory of a validator
failed; in every other sweep that returns, it returns a nil error and a matrix,
every pair of a resolved client and a resolved validator has been run and has a
verdict in the matrix. -/
theorem validateClients_error_sources (d : Env σ) (clientPattern validatorPattern : String)
    (overrides : List String) (fuel : Nat) (s0 s1 : σ) (res : Except Err Matrix)
    (tr : List Event)
    (h : validateClients d clientPattern validatorPattern overrides fuel s0 =
      some (.returned res, s1, tr)) :
    (∀ err, res = .error err →
      (tr.any isResolutionFailure = true ∧ tr.any isPairStart = false) ∨
        tr.any isDirectoryFailure = true) ∧
    (tr.any isResolutionFailure = false → tr.any isDirectoryFailure = false →
      ∃ m clients validators, res = .ok m ∧
        Event.buildClients clientPattern (.ok clients) ∈ tr ∧
        Event.buildValidators validatorPattern (.ok validators) ∈ tr ∧
        ∀ c ∈ clients, ∀ v ∈ validators,
          tr.any (isPairStartOf c.2 v.2) = true ∧ (cell m c.1 v.1).isSome = true) := by
  have hret := validateClients_returned d clientPattern validatorPattern overrides fuel s0 s1
    res tr h
  cases res with
  | error e =>
    refine ⟨fun _ _ => hret, ?_⟩
    intro h1 h2
    rcases hret with ⟨h3, -⟩ | h3
    · rw [h1] at h3
      exact Bool.noConfusion h3
    · rw [h2] at h3
      exact Bool.noConfusion h3
  | ok m =>
    refine ⟨fun err herr => Except.noConfusion herr, ?_⟩
    intro _ _
    obtain ⟨clients, validators, h1, h2, h3⟩ := hret
    exact ⟨m, clients, validators, rfl, h1, h2, h3⟩

/-- The sweep whose second output directory cannot be made returns the error of
that call, after the pairs of the first validator have been run. -/
theorem validateClients_error_sources_witness :
    ∃ res s tr, validateClients directoryFailsEnv "" "" [] 5 0 = some (.returned res, s, tr) ∧
      res = .error "mkdir failed" ∧ tr.any isDirectoryFailure = true ∧
      ((∀ err, res = .error err →
        (tr.any isResolutionFailure = true ∧ tr.any isPairStart = false) ∨
          tr.any isDirectoryFailure = true) ∧
      (tr.any isResolutionFailure = false → tr.any isDirectoryFailure = false →
        ∃ m clients validators, res = .ok m ∧
          Event.buildClients "" (.ok clients) ∈ tr ∧
          Event.buildValidators "" (.ok validators) ∈ tr ∧
          ∀ c ∈ clients, ∀ v ∈ validators,
            tr.any (isPairStartOf c.2 v.2) = true ∧ (cell m c.1 v.1).isSome = true)) :=
  ⟨_, _, _, rfl, rfl, by decide,
    validateClients_error_sources directoryFailsEnv "" "" [] 5 0 _ _ _ rfl⟩

/-- C6, at the failing input. When the daemon answers the container ID `abc` for
the client, `validate` panics at `cc.ID[:8]`: no verdict is returned, and the
container just created is not removed. -/
theorem validate_panics_on_short_id :
    ∀ fuel, ∃ tr, validate shortIDEnv "imgA" "imgV1" [] "logs" fuel 0 =
        some (.panicked, 0, tr) ∧
      tr = [.createClientContainer "imgA" "imgV1" (.ok ⟨"abc", false, 0, none⟩)] ∧
      createdAreRemoved tr = false :=
  fun _ => ⟨_, rfl, rfl, by decide⟩

/-- C7, at the failing input. When inspecting the started validator fails,
`validate` returns a verdict with that error, and the log stream of the
validator, obtained when it was started, is neither closed nor waited for. -/
theorem validator_stream_not_released :
    ∃ r s tr, validate inspectFailsEnv "imgA" "imgV1" [] "logs" 5 0 = some (.returned r, s, tr) ∧
      r.Error = some "no such container" ∧
      Event.runContainer "container-imgV1" "logs/validator.log" (.ok 15) ∈ tr ∧
      tr.any (isRelease 15) = false ∧ streamsAreReleased tr = false :=
  ⟨_, _, _, rfl, rfl, by decide, by decide, by decide⟩

/-- C8. First, in the calls of the readiness loop after any number of ticks, and
in every run of `validate` that ended, each dial comes right after an inspection
of the client container that succeeded and reported it running, and goes to port
8545 of the address that inspection reported. Second, when the client was
created, started and inspected and the readiness wait reaches a tick whose
inspection reports the client not running, `validate` returns, for every fuel
that reaches that tick: the verdict has `Success = false` and the error
`terminated unexpectedly`; the run ends with that inspection followed by the two
deferred teardown calls only (no dial on that tick, no further tick), and no
validator container is created. -/
theorem validate_readiness_wait (d : Env σ) (client validator : String) (overrides : List String)
    (logdir : String) (s0 : σ) :
    (∀ id fuel s, dialsFollowInspect id none (pollLoop d id fuel s).2.2 = true) ∧
    (∀ fuel o s1 tr, validate d client validator overrides logdir fuel s0 = some (o, s1, tr) →
      dialsFollowClientInspect tr = true) ∧
    (∀ (s1 s2 s3 sk s4 : σ) (cc lcc c : Container) (cw : CloseWaiter) (ip : String) (k : Nat),
      d.createClientContainer client validator overrides s0 = (.ok cc, s1) →
      8 ≤ cc.ID.utf8ByteSize →
      d.runContainer cc.ID (d.Join logdir "client.log") s1 = (.ok cw, s2) →
      d.InspectContainer cc.ID s2 = (.ok lcc, s3) →
      lcc.NetworkSettings = some ip →
      tickWorld d cc.ID k s3 = some sk →
      d.InspectContainer cc.ID sk = (.ok c, s4) →
      c.Running = false →
      ∀ fuel, k < fuel →
        ∃ result pre,
          validate d client validator overrides logdir fuel s0 =
            some (.returned result, (d.RemoveContainer cc.ID true (d.Close cw s4)).2,
              pre ++ [.InspectContainer cc.ID (.ok c), .Close cw,
                .RemoveContainer cc.ID true
                  (d.RemoveContainer cc.ID true (d.Close cw s4)).1]) ∧
          result.Success = false ∧ result.Error = some "terminated unexpectedly" ∧
          pre.any isValidatorCreated = false ∧ clientID pre = some cc.ID ∧
          dialsFollowInspect cc.ID none pre = true) :=
  ⟨fun id fuel s => by
      have := pollLoop_dials d id [] (fun _ => rfl) fuel s none
      rw [List.append_nil] at this
      exact this.trans rfl,
    fun fuel o s1 tr h => validate_dials d client validator overrides logdir fuel s0 s1 o tr h,
    fun s1 s2 s3 sk s4 cc lcc c cw ip k h1 h2 h3 h4 h5 h6 h7 h8 fuel hfuel =>
      validate_dead d client validator overrides logdir s0 s1 s2 s3 sk s4 cc lcc c cw ip k
        h1 h2 h3 h4 h5 h6 h7 h8 fuel hfuel⟩

/-- The run in which the client stops on the third tick: with fuel 3 it returns. -/
theorem validate_readiness_wait_witness :
    tickWorld clientExitsEnv "container-imgA" 2 1 = some 3 ∧
    clientExitsEnv.InspectContainer "container-imgA" 3 =
      (.ok ⟨"container-imgA", false, 0, some "container-imgA"⟩, 4) ∧
    ∃ result pre,
      validate clientExitsEnv "imgA" "imgV1" [] "logs" 3 0 =
        some (.returned result, 4,
          pre ++ [.InspectContainer "container-imgA"
              (.ok ⟨"container-imgA", false, 0, some "container-imgA"⟩),
            .Close 14, .RemoveContainer "container-imgA" true none]) ∧
      result.Success = false ∧ result.Error = some "terminated unexpectedly" ∧
      pre.any isValidatorCreated = false ∧ clientID pre = some "container-imgA" ∧
      dialsFollowInspect "container-imgA" none pre = true :=
  ⟨rfl, rfl,
    (validate_readiness_wait clientExitsEnv "imgA" "imgV1" [] "logs" 0).2.2 0 0 1 3 4
      ⟨"container-imgA", false, 0, none⟩ ⟨"container-imgA", true, 0, some "container-imgA"⟩
      ⟨"container-imgA", false, 0, some "container-imgA"⟩ 14 "container-imgA" 2
      rfl (by decide) rfl rfl rfl rfl rfl rfl 3 (by decide)⟩

/-- C9 as stated fails: for the client that never becomes ready, no amount of
ticks makes `validate` return a verdict, and the sweep over the clients `A`, `B`
and the validator `V1` returns no matrix. -/
theorem never_ready_counterexample :
    (¬ ∃ fuel r s tr, validate neverReadyEnv "imgB" "imgV1" [] "logs/V1/B" fuel 4 =
        some (.returned r, s, tr) ∧ r.Success = false ∧ r.Error.isSome = true) ∧
      ¬ ∃ fuel m s tr, validateClients neverReadyEnv "" "" [] fuel 0 =
        some (.returned (.ok m), s, tr) := by
  constructor
  · rintro ⟨fuel, r, s, tr, h, -⟩
    rw [neverReadyEnv_imgB] at h
    exact Option.noConfusion h
  · rintro ⟨fuel, m, s, tr, h⟩
    rw [neverReadyEnv_sweep] at h
    exact Option.noConfusion h

/-- C9, amended. If the client container was created and started, every
inspection of it succeeds with running = true and an address, and every dial to
port 8545 of that address fails, then `validate` never returns a verdict: it is
still polling after any number of ticks. In the sweep over the clients `A`, `B`
and the validator `V1`, where `A` becomes ready and `V1` exits 0 and `B` never
becomes ready, the pair of `A` gets `Success = true`, the pair of `B` never ends,
and the sweep returns no matrix. -/
theorem validate_never_ready (d : Env σ) (client validator : String) (overrides : List String)
    (logdir : String) (s0 s1 s2 : σ) (cc : Container) (w : CloseWaiter)
    (hcreate : d.createClientContainer client validator overrides s0 = (.ok cc, s1))
    (hid : 8 ≤ cc.ID.utf8ByteSize)
    (hrun : d.runContainer cc.ID (d.Join logdir "client.log") s1 = (.ok w, s2))
    (hnever : ∀ s, ∃ c ip, (d.InspectContainer cc.ID s).1 = .ok c ∧ c.Running = true ∧
      c.NetworkSettings = some ip ∧ ∀ s3, (d.Dial (ip ++ ":8545") s3).1 = false) :
    (∀ fuel, validate d client validator overrides logdir fuel s0 = none) ∧
      (∃ r s tr, validate neverReadyEnv "imgA" "imgV1" [] "logs/V1/A" 1 0 =
        some (.returned r, s, tr) ∧ r.Success = true) ∧
      (∀ fuel, validate neverReadyEnv "imgB" "imgV1" [] "logs/V1/B" fuel 4 = none) ∧
      (∀ fuel, validateClients neverReadyEnv "" "" [] fuel 0 = none) :=
  ⟨validate_forever d client validator overrides logdir s0 s1 s2 cc w hcreate hid hrun hnever,
    ⟨_, _, _, rfl, rfl⟩, fun fuel => neverReadyEnv_imgB _ fuel 4, neverReadyEnv_sweep⟩

/-- The client made from `imgB` in `neverReadyEnv`. -/
theorem validate_never_ready_witness :
    (∀ fuel, validate neverReadyEnv "imgB" "imgV1" [] "logs/V1/B" fuel 4 = none) ∧
      (∃ r s tr, validate neverReadyEnv "imgA" "imgV1" [] "logs/V1/A" 1 0 =
        some (.returned r, s, tr) ∧ r.Success = true) ∧
      (∀ fuel, validate neverReadyEnv "imgB" "imgV1" [] "logs/V1/B" fuel 4 = none) ∧
      (∀ fuel, validateClients neverReadyEnv "" "" [] fuel 0 = none) :=
  validate_never_ready neverReadyEnv "imgB" "imgV1" [] "logs/V1/B" 4 4 4
    ⟨"container-imgB", false, 0, none⟩ 14 rfl (by decide) rfl
    (fun _ => ⟨⟨"container-imgB", true, 0, some "container-imgB"⟩, "container-imgB", rfl, rfl,
      rfl, fun _ => rfl⟩)

/-- C10. Two runs of `validate` from the same world, on environments that agree on
everything but what copying `/enode.sh` and `RemoveContainer` answer, return
verdicts with the same `Success` and the same `Error`. -/
theorem validate_verdict_best_effort (d1 d2 : Env σ) (hagree : AgreeButBestEffort d1 d2)
    (client validator : String) (overrides : List String) (logdir : String)
    (fuel1 fuel2 : Nat) (s0 s1 s2 : σ) (r1 r2 : validationResult) (t1 t2 : List Event)
    (h1 : validate d1 client validator overrides logdir fuel1 s0 = some (.returned r1, s1, t1))
    (h2 : validate d2 client validator overrides logdir fuel2 s0 = some (.returned r2, s2, t2)) :
    r1.Success = r2.Success ∧ r1.Error = r2.Error := by
  have m1 := validate_mono d1 client validator overrides logdir fuel1 fuel2 s0 _ h1
  have m2 := validate_mono d2 client validator overrides logdir fuel2 fuel1 s0 _ h2
  rw [Nat.add_comm] at m2
  have := validate_agree d1 d2 hagree client validator overrides logdir (fuel1 + fuel2) s0
  rw [m1, m2] at this
  simp at this
  obtain ⟨rfl, _⟩ := this
  exact ⟨rfl, rfl⟩

/-- A run where the copy and both removals succeed and one where they fail: the
calls recorded differ, the verdicts agree. -/
theorem validate_verdict_best_effort_witness :
    AgreeButBestEffort happyEnv bestEffortFailsEnv ∧
      ∃ r1 r2 s1 s2 t1 t2,
        validate happyEnv "imgA" "imgV1" [] "logs" 5 0 = some (.returned r1, s1, t1) ∧
        validate bestEffortFailsEnv "imgA" "imgV1" [] "logs" 7 0 = some (.returned r2, s2, t2) ∧
        t1 ≠ t2 ∧ r1.Success = r2.Success ∧ r1.Error = r2.Error :=
  ⟨agree_happy_bestEffortFails, _, _, _, _, _, _, rfl, rfl, by decide,
    validate_verdict_best_effort happyEnv bestEffortFailsEnv agree_happy_bestEffortFails
      "imgA" "imgV1" [] "logs" 5 7 0 _ _ _ _ _ _ rfl rfl⟩

end Hive
